import Mathlib

/-!
Verification of the QRP-dgby core: the configuration diff codec
(src/utils/compression.ts), the PNG metadata chunk codec, the sequencer
collection operations (src/hooks/useSequencer.ts), and the video-export
frame loop (src/hooks/useVideoExport.ts), as a shallow embedding.

JavaScript modelling conventions used throughout this file:
* JS numbers are modelled as rationals; the program never produces NaN or
  infinities on the paths the claims touch, and the documented rounding is
  exact decimal rounding on rationals.
* JS strings at the compression layer are Lean strings (all strings involved
  are free of unpaired surrogates, so UTF-16 code-unit and scalar views
  coincide); at the PNG byte layer they are lists of UTF-16 code units.
* A thrown-and-uncaught JS exception is an Except.error result; code that
  cannot throw is a plain function.
-/

/-- The kinds of JS runtime exception the modelled code can raise. -/
inductive JsErr
  | typeError
  | rangeError
deriving DecidableEq, Repr

/-- A JSON value, as produced by JSON.parse / consumed by JSON.stringify.
Objects are association lists of fields; JSON.parse keeps one binding per
key, and every object this program builds has distinct keys, so lookup by
first match models JS property access. -/
inductive Json
  | num (q : ℚ)
  | str (s : String)
  | bool (b : Bool)
  | null
  | arr (xs : List Json)
  | obj (fields : List (String × Json))

/-- A JS expression value: a JSON value or undefined (absent property). -/
inductive JsVal
  | js (j : Json)
  | undefined

/-- Whether a JSON value is a primitive (number, string or boolean).
GeometryConfig fields are always primitives (types.ts declares each field
as number, boolean, or a closed string enum). -/
def Json.isPrim : Json → Prop
  | .num _ => True
  | .str _ => True
  | .bool _ => True
  | _ => False

instance : DecidablePred Json.isPrim := fun j => by
  cases j <;> simp [Json.isPrim] <;> infer_instance

/-- JS strict equality on values as used by minifyGeoDiff's comparison.
On primitives it is value equality; two separately constructed objects or
arrays are never strictly equal (reference semantics), and the program
never aliases a field value across the two configs being compared, so the
constant-false object case is faithful here.  null === null is true. -/
def jsEqPrim : Json → Json → Bool
  | .num a, .num b => a == b
  | .str a, .str b => a == b
  | .bool a, .bool b => a == b
  | .null, .null => true
  | _, _ => false

/-- The 38 GeometryConfig field names (types.ts / GEO_KEY_MAP). -/
inductive GeoKey
  | showFrame
  | frameDoubleTop
  | frameScale
  | frameHeaderOffset
  | frameTickLength
  | frameStrokeWidth
  | uiFontSize
  | overallScale
  | mainScale
  | petals
  | petalSize
  | petalRoundness
  | lobeCount
  | lobeRadius
  | lobeType
  | lobeDesign
  | designScale
  | designOffset
  | centerDesign
  | lobeOpacity
  | centerOpacity
  | geometryRotation
  | dharmaExtrusionOut
  | dharmaExtrusionSide
  | dharmaStemWidth
  | dharmaCapHeight
  | ringInnerRadius
  | stripeSep
  | stripeStart
  | hullValley
  | hullCoverage
  | sequenceLength
  | shellScale
  | shellStroke
  | ringStroke
  | stripeStroke
  | uiFont
  | frameSquareHeader
deriving DecidableEq, Repr

/-- The short-alias table GEO_KEY_MAP (compression.ts lines 6-45). -/
def GEO_KEY_MAP : GeoKey → String
  | .showFrame => "a"
  | .frameDoubleTop => "b"
  | .frameScale => "c"
  | .frameHeaderOffset => "d"
  | .frameTickLength => "e"
  | .frameStrokeWidth => "f"
  | .uiFontSize => "g"
  | .overallScale => "h"
  | .mainScale => "M"
  | .petals => "i"
  | .petalSize => "j"
  | .petalRoundness => "k"
  | .lobeCount => "l"
  | .lobeRadius => "m"
  | .lobeType => "n"
  | .lobeDesign => "L"
  | .designScale => "S"
  | .designOffset => "O"
  | .centerDesign => "K"
  | .lobeOpacity => "E"
  | .centerOpacity => "F"
  | .geometryRotation => "R"
  | .dharmaExtrusionOut => "o"
  | .dharmaExtrusionSide => "p"
  | .dharmaStemWidth => "q"
  | .dharmaCapHeight => "r"
  | .ringInnerRadius => "s"
  | .stripeSep => "t"
  | .stripeStart => "u"
  | .hullValley => "v"
  | .hullCoverage => "w"
  | .sequenceLength => "x"
  | .shellScale => "y"
  | .shellStroke => "z"
  | .ringStroke => "A"
  | .stripeStroke => "B"
  | .uiFont => "C"
  | .frameSquareHeader => "H"

/-- Object.keys(GEO_KEY_MAP): the field keys in the insertion order of the
source literal, the iteration order of minifyGeoDiff. -/
def GEO_KEYS : List GeoKey :=
  [.showFrame, .frameDoubleTop, .frameScale, .frameHeaderOffset,
   .frameTickLength, .frameStrokeWidth, .uiFontSize, .overallScale,
   .mainScale, .petals, .petalSize, .petalRoundness, .lobeCount,
   .lobeRadius, .lobeType, .lobeDesign, .designScale, .designOffset,
   .centerDesign, .lobeOpacity, .centerOpacity, .geometryRotation,
   .dharmaExtrusionOut, .dharmaExtrusionSide, .dharmaStemWidth,
   .dharmaCapHeight, .ringInnerRadius, .stripeSep, .stripeStart,
   .hullValley, .hullCoverage, .sequenceLength, .shellScale, .shellStroke,
   .ringStroke, .stripeStroke, .uiFont, .frameSquareHeader]

/-- REV_GEO_KEY_MAP: short alias back to the field key (all aliases are
distinct, so first match equals the source's reduce-built record). -/
def REV_GEO_KEY_MAP (s : String) : Option GeoKey :=
  GEO_KEYS.find? (fun k => GEO_KEY_MAP k == s)

/-- A fully-populated GeometryConfig: a value for each of the 38 fields. -/
def GeoConfig : Type := GeoKey → Json

/-- JS Math.round: round half toward positive infinity. -/
def jsRound (q : ℚ) : ℤ := ⌊q + 1/2⌋

/-- parseFloat(val.toFixed(3)): round to 3 decimal places, ties away from
zero (toFixed applies its rounding to the magnitude). -/
def jsToFixed3 (q : ℚ) : ℚ :=
  if q < 0 then -((jsRound (-q * 1000) : ℚ) / 1000)
  else (jsRound (q * 1000) : ℚ) / 1000

/-- smartRound (compression.ts lines 49-57): a number within 1e-4 of an
integer collapses to that integer; any other number is rounded to 3 decimal
places; non-numbers pass through unchanged. -/
def smartRound (val : Json) : Json :=
  match val with
  | .num q =>
      if |q - (jsRound q : ℚ)| < 1/10000 then .num (jsRound q)
      else .num (jsToFixed3 q)
  | v => v

/-- minifyGeoDiff (compression.ts lines 61-80): only the keys of target
that differ from baseline after smartRound, under short aliases, with
rounded values, in GEO_KEY_MAP order. -/
def minifyGeoDiff (target baseline : GeoConfig) : List (String × Json) :=
  GEO_KEYS.filterMap (fun key =>
    let rTarget := smartRound (target key)
    let rBase := smartRound (baseline key)
    if jsEqPrim rTarget rBase then none else some (GEO_KEY_MAP key, rTarget))

/-- One step of the for-in loop shared by the two inflaters: a recognized
short key overwrites that field; an unknown short key is skipped
(inflateGeoDiff) or becomes an ad-hoc extra property invisible to every
GeometryConfig field and to every claim (inflateGeoLegacy). -/
def applyGeoEntry (g : GeoConfig) (e : String × Json) : GeoConfig :=
  match REV_GEO_KEY_MAP e.1 with
  | some fullKey => fun k => if k = fullKey then e.2 else g k
  | none => g

/-- Modelled from the spec: the baseline preset SUNFLOWER_PRESET lives in
src/constants.ts, which is not among the provided sources.  The spec
requires a fully-populated record of number / boolean / enum fields and,
through its round-trip invariant, values that are fixed points of the
documented rounding (hand-authored values with at most 3 decimals).  The
concrete numbers below are representative; every theorem that depends on
the preset uses only these two properties. -/
def SUNFLOWER_PRESET : GeoConfig
  | .showFrame => .bool true
  | .frameDoubleTop => .bool false
  | .frameScale => .num 1
  | .frameHeaderOffset => .num 0
  | .frameTickLength => .num 8
  | .frameStrokeWidth => .num 2
  | .uiFontSize => .num 12
  | .overallScale => .num 1
  | .mainScale => .num 1
  | .petals => .num 8
  | .petalSize => .num (55/100)
  | .petalRoundness => .num (6/10)
  | .lobeCount => .num 12
  | .lobeRadius => .num (72/100)
  | .lobeType => .str "sunflower"
  | .lobeDesign => .str "seeds"
  | .designScale => .num 1
  | .designOffset => .num 0
  | .centerDesign => .str "seeds"
  | .lobeOpacity => .num 1
  | .centerOpacity => .num 1
  | .geometryRotation => .num 0
  | .dharmaExtrusionOut => .num (3/10)
  | .dharmaExtrusionSide => .num (2/10)
  | .dharmaStemWidth => .num (15/100)
  | .dharmaCapHeight => .num (25/100)
  | .ringInnerRadius => .num (35/100)
  | .stripeSep => .num (6/100)
  | .stripeStart => .num (42/100)
  | .hullValley => .num (3/10)
  | .hullCoverage => .num (85/100)
  | .sequenceLength => .num 8
  | .shellScale => .num 1
  | .shellStroke => .num (15/10)
  | .ringStroke => .num (15/10)
  | .stripeStroke => .num 1
  | .uiFont => .str "monospace"
  | .frameSquareHeader => .bool false

/-- inflateGeoDiff (compression.ts lines 83-95): apply a minified diff
object to a baseline; a falsy or non-object diff leaves the baseline. -/
def inflateGeoDiff (minDiff : JsVal) (baseline : GeoConfig) : GeoConfig :=
  match minDiff with
  | .js (.obj fields) => fields.foldl applyGeoEntry baseline
  | _ => baseline

/-- inflateGeoLegacy (compression.ts lines 98-109): v1/v2/v3 inflater over
the SUNFLOWER_PRESET baseline (unknown keys become extra properties in JS,
outside the GeometryConfig fields, hence dropped by the model). -/
def inflateGeoLegacy (minGeo : JsVal) : GeoConfig :=
  match minGeo with
  | .js (.obj fields) => fields.foldl applyGeoEntry SUNFLOWER_PRESET
  | _ => SUNFLOWER_PRESET

/-- An item ("card") as held by the application (types.ts Sequence):
data is a list of JS numbers, integral in every reachable state. -/
structure Sequence where
  id : ℚ
  name : String
  description : String
  data : List ℤ
  geoConfig : GeoConfig

/-- JS String(n) for an integer (template literals and Array.join use it);
integers of magnitude at least 10^21 print in exponent form in JS, which no
claim reaches and the model does not reproduce. -/
def jsIntToString (z : ℤ) : String :=
  if z < 0 then "-" ++ String.mk (Nat.toDigits 10 z.natAbs)
  else String.mk (Nat.toDigits 10 z.toNat)

/-- s.data.join(''): concatenate the decimal texts of the data values. -/
def jsJoinData (data : List ℤ) : String :=
  String.join (data.map jsIntToString)

/-- The per-item object built by compressConfig (lines 122-141): keys i, n,
D always; d only for a non-empty description; g only for a non-empty
geometry diff against the global base. -/
def compressSeqObj (globalBase : GeoConfig) (s : Sequence) : Json :=
  let seqDiff := minifyGeoDiff s.geoConfig globalBase
  .obj ([("i", .num s.id), ("n", .str s.name), ("D", .str (jsJoinData s.data))]
    ++ (if s.description ≠ "" then [("d", .str s.description)] else [])
    ++ (if seqDiff.length > 0 then [("g", .obj seqDiff)] else []))

/-- compressConfig (compression.ts lines 111-153), modelled to the JSON
payload value.  The source then applies JSON.stringify and base64
(btoa/unescape/encodeURIComponent); JSON.parse of JSON.stringify is the
identity on these values, so the token round trip is modelled at this
level. -/
def compressConfig (geoConfig : GeoConfig) (sequences : List Sequence)
    (timingMs : ℚ) : Json :=
  let globalBase := geoConfig
  let minGlobalGeo := minifyGeoDiff globalBase SUNFLOWER_PRESET
  .obj [("v", .num 4), ("t", .num timingMs), ("G", .obj minGlobalGeo),
        ("s", .arr (sequences.map (compressSeqObj globalBase)))]

/-- JS property access obj.k: throws TypeError on null (and undefined);
yields undefined for a missing key or a non-object receiver (no property
named i, n, D, d, g, v, t, G or s exists on primitives or arrays). -/
def member (j : Json) (k : String) : Except JsErr JsVal :=
  match j with
  | .null => .error .typeError
  | .obj fields =>
      .ok (match fields.find? (fun e => e.1 == k) with
           | some e => .js e.2
           | none => .undefined)
  | _ => .ok .undefined

/-- JS truthiness (no NaN exists in parsed JSON). -/
def truthy : JsVal → Bool
  | .undefined => false
  | .js .null => false
  | .js (.bool b) => b
  | .js (.num q) => !(q == 0)
  | .js (.str s) => !(s == "")
  | .js (.arr _) => true
  | .js (.obj _) => true

/-- v || dflt: the value itself when truthy, otherwise the default. -/
def jsOr (v : JsVal) (dflt : Json) : Json :=
  if truthy v then match v with | .js j => j | .undefined => .null
  else dflt

/-- v === q for a number literal q. -/
def jsStrictEqNum (v : JsVal) (q : ℚ) : Bool :=
  match v with
  | .js (.num a) => a == q
  | _ => false

/-- Calling .map on a value: only arrays have it; anything else throws a
TypeError (undefined property or not a function). -/
def asArrayJs : JsVal → Except JsErr (List Json)
  | .js (.arr xs) => .ok xs
  | _ => .error .typeError

/-- Array.isArray. -/
def isArrayJs : JsVal → Bool
  | .js (.arr _) => true
  | _ => false

/-- typeof v === 'string'. -/
def isStringJs : JsVal → Bool
  | .js (.str _) => true
  | _ => false

/-- An element of a decoded data array: a JS number network of the digit
parse can be NaN, and the raw-array fallback copies arbitrary JSON values. -/
inductive DataElem
  | nan
  | json (j : Json)

/-- parseInt(c, 10) on a single character: a decimal digit parses to its
value, everything else to NaN. -/
def charParseInt10 (c : Char) : DataElem :=
  if '0' ≤ c ∧ c ≤ '9' then .json (.num ((c.toNat - 48 : ℕ) : ℚ)) else .nan

/-- Number(c) on a single character (v1 path): a digit parses to its value,
whitespace to 0, everything else to NaN (other single-character numeric
forms do not exist). -/
def charNumber (c : Char) : DataElem :=
  if '0' ≤ c ∧ c ≤ '9' then .json (.num ((c.toNat - 48 : ℕ) : ℚ))
  else if c = ' ' ∨ c = '\t' ∨ c = '\n' ∨ c = '\r' then .json (.num 0)
  else .nan

/-- The decoded form of one item: id, name and description are whatever
JSON values survive the || fallbacks; data as parsed. -/
structure DecodedSeq where
  id : Json
  name : Json
  description : Json
  data : List DataElem
  geoConfig : GeoConfig

/-- The geoConfig field of a decode result: a fully-populated config, or
the literal empty object the v2/v3 path yields when no items decode. -/
inductive PartialGeo
  | full (g : GeoConfig)
  | emptyObj

/-- The result object of decompressConfig. -/
structure DecodeResult where
  geoConfig : PartialGeo
  sequences : List DecodedSeq
  timingMs : JsVal

/-- The v4 per-item decoder (compression.ts lines 168-186).  rand stands
for the Math.random() fallback id.  Property access throws only when the
array element is null. -/
def decodeSeqV4 (rand : ℚ) (globalBase : GeoConfig) (s : Json) :
    Except JsErr DecodedSeq := do
  let g ← member s "g"
  let seqGeo := if truthy g then inflateGeoDiff g globalBase else globalBase
  let dD ← member s "D"
  let data : List DataElem :=
    if isStringJs dD then
      (match dD with | .js (.str t) => t.toList.map charParseInt10 | _ => [])
    else if isArrayJs dD then
      (match dD with | .js (.arr xs) => xs.map DataElem.json | _ => [])
    else []
  let i ← member s "i"
  let n ← member s "n"
  let d ← member s "d"
  return { id := jsOr i (.num rand), name := jsOr n (.str "Sequence"),
           description := jsOr d (.str ""), data := data, geoConfig := seqGeo }

/-- The v2/v3 per-item decoder (lines 193-208): like v4 but each item
carries a complete legacy geometry object. -/
def decodeSeqLegacy (rand : ℚ) (s : Json) : Except JsErr DecodedSeq := do
  let dD ← member s "D"
  let data : List DataElem :=
    if isStringJs dD then
      (match dD with | .js (.str t) => t.toList.map charParseInt10 | _ => [])
    else if isArrayJs dD then
      (match dD with | .js (.arr xs) => xs.map DataElem.json | _ => [])
    else []
  let i ← member s "i"
  let n ← member s "n"
  let d ← member s "d"
  let g ← member s "g"
  return { id := jsOr i (.num rand), name := jsOr n (.str "Sequence"),
           description := jsOr d (.str ""), data := data,
           geoConfig := inflateGeoLegacy g }

/-- The v1 per-item decoder (lines 218-230): array data first, then a
string split mapped through Number; geometry is a copy of the global. -/
def decodeSeqV1 (rand : ℚ) (globalGeo : GeoConfig) (s : Json) :
    Except JsErr DecodedSeq := do
  let dD ← member s "D"
  let data : List DataElem :=
    if isArrayJs dD then
      (match dD with | .js (.arr xs) => xs.map DataElem.json | _ => [])
    else if isStringJs dD then
      (match dD with | .js (.str t) => t.toList.map charNumber | _ => [])
    else []
  let i ← member s "i"
  let n ← member s "n"
  let d ← member s "d"
  return { id := jsOr i (.num rand), name := jsOr n (.str "Sequence"),
           description := jsOr d (.str ""), data := data,
           geoConfig := globalGeo }

/-- decompressConfig after JSON.parse (compression.ts lines 158-235): the
body of the try block, with every throwing operation explicit.  An .ok none
is the final explicit return null (unrecognized version shape). -/
def decompressPayload (rand : ℚ) (payload : Json) :
    Except JsErr (Option DecodeResult) := do
  let t ← member payload "t"
  let v ← member payload "v"
  if jsStrictEqNum v 4 then
    let gG ← member payload "G"
    let globalBase := inflateGeoDiff gG SUNFLOWER_PRESET
    let sV ← member payload "s"
    let xs ← asArrayJs sV
    let sequences ← xs.mapM (decodeSeqV4 rand globalBase)
    return some { geoConfig := .full globalBase, sequences := sequences,
                  timingMs := t }
  else
    let sV ← member payload "s"
    if (jsStrictEqNum v 3 || jsStrictEqNum v 2) && isArrayJs sV then
      let xs ← asArrayJs sV
      let sequences ← xs.mapM (decodeSeqLegacy rand)
      let geo := match sequences.head? with
        | some s0 => PartialGeo.full s0.geoConfig
        | none => PartialGeo.emptyObj
      return some { geoConfig := geo, sequences := sequences, timingMs := t }
    else
      let gV ← member payload "g"
      if truthy gV then
        let globalGeo := inflateGeoLegacy gV
        let sequences ←
          if truthy sV && isArrayJs sV then do
            let xs ← asArrayJs sV
            xs.mapM (decodeSeqV1 rand globalGeo)
          else pure []
        return some { geoConfig := .full globalGeo, sequences := sequences,
                      timingMs := t }
      else
        return none

/-- decompressConfig (compression.ts lines 155-240).  transport stands for
the platform steps atob / escape / decodeURIComponent / JSON.parse, each of
whose failures throws; the try/catch converts any thrown error, and the
explicit return null, into null. -/
def decompressConfig (transport : String → Except JsErr Json) (rand : ℚ)
    (encoded : String) : Option DecodeResult :=
  match (do
      let payload ← transport encoded
      decompressPayload rand payload) with
  | .ok r => r
  | .error _ => none

/-! ### Basic facts about the alias table and the rounding -/

/-- The geometry an item decodes to from a v4 token whose global base was
the active config g: fields that rounded equal to the active config take
the decoded global value, the rest the rounded item value. -/
def itemDecodedGeo (g tcfg : GeoConfig) : GeoConfig := fun k =>
  if jsEqPrim (smartRound (tcfg k)) (smartRound (g k)) then smartRound (g k)
  else smartRound (tcfg k)

/-- Whether a serialized JSON object carries a key. -/
def jsonHasKey (j : Json) (k : String) : Bool :=
  match j with
  | .obj fields => fields.any (fun e => e.1 == k)
  | _ => false

/-- One inner iteration of the CRC table construction: the reflected
0xEDB88320 polynomial step. -/
def crcStep (c : ℕ) : ℕ :=
  if c % 2 = 1 then Nat.xor 0xEDB88320 (c / 2) else c / 2

/-- crcTable[i]: eight polynomial steps applied to the byte index. -/
def crcTable (i : ℕ) : ℕ :=
  (List.range 8).foldl (fun c _ => crcStep c) i

/-- crc32 (part_003 lines 11-17): standard reflected CRC-32 with initial
and final XOR 0xFFFFFFFF. -/
def crc32 (buf : List ℕ) : ℕ :=
  Nat.xor
    (buf.foldl
      (fun crc b => Nat.xor (crc / 2 ^ 8) (crcTable (Nat.xor crc b % 256)))
      0xFFFFFFFF)
    0xFFFFFFFF

/-- stringToUint8: JS code units stored into a Uint8Array truncate
modulo 256. -/
def stringToUint8 (str : List ℕ) : List ℕ :=
  str.map (· % 256)

/-- DataView.setUint32 big-endian: the four bytes of n modulo 2^32. -/
def u32be (n : ℕ) : List ℕ :=
  [n % 2 ^ 32 / 2 ^ 24, n % 2 ^ 32 / 2 ^ 16 % 256,
   n % 2 ^ 32 / 2 ^ 8 % 256, n % 2 ^ 32 % 256]

/-- writePngMetadata (part_003 lines 28-72): build the tEXt chunk
(length, type, key 0x00 value, CRC over type+data) and splice it at the
fixed offset 33, right after the 8-byte signature and 25-byte IHDR chunk.
A buffer shorter than the insertion offset makes the typed-array set call
overrun the destination and throw a RangeError. -/
def writePngMetadata (pngBuffer : List ℕ) (key value : List ℕ) :
    Except JsErr (List ℕ) :=
  let keyArr := stringToUint8 key
  let valArr := stringToUint8 value
  let chunkData := keyArr ++ [0] ++ valArr
  let chunkLen := chunkData.length
  let typeTag := [116, 69, 88, 116]
  let crcVal := crc32 (typeTag ++ chunkData)
  let fullChunk := u32be chunkLen ++ typeTag ++ chunkData ++ u32be crcVal
  let insertPos := 33
  if pngBuffer.length < insertPos then .error .rangeError
  else .ok (pngBuffer.take insertPos ++ fullChunk ++ pngBuffer.drop insertPos)

/-- The value of four big-endian bytes. -/
def val32 : List ℕ → ℕ
  | [b0, b1, b2, b3] => 2 ^ 24 * b0 + 2 ^ 16 * b1 + 2 ^ 8 * b2 + b3
  | _ => 0

/-- DataView.getUint32(offset, false): big-endian read, throwing a
RangeError when the four bytes do not fit inside the buffer. -/
def getUint32be (data : List ℕ) (offset : ℕ) : Except JsErr ℕ :=
  if offset + 4 ≤ data.length then .ok (val32 ((data.drop offset).take 4))
  else .error .rangeError

/-- The 4-byte chunk type at a chunk offset (subarray clamps, so this
never throws). -/
def pngTypeAt (data : List ℕ) (offset : ℕ) : List ℕ :=
  (data.drop (offset + 4)).take 4

/-- The body of the tEXt branch of the read loop: on a tEXt chunk, split
the clamped chunk content at its first 0x00 and return the value part when
the key part matches. -/
def tEXtHit (data key : List ℕ) (offset length : ℕ) : Option (List ℕ) :=
  if pngTypeAt data offset = [116, 69, 88, 116] then
    let chunkContent := (data.drop (offset + 8)).take length
    match chunkContent.findIdx? (fun b => b == 0) with
    | some nullIndex =>
        if chunkContent.take nullIndex = key
        then some (chunkContent.drop (nullIndex + 1))
        else none
    | none => none
  else none

/-- The chunk-walking loop of readPngMetadata (part_003 lines 80-108):
read each chunk's 4-byte length (the DataView read throws a RangeError
when it straddles the end of the buffer) and type, return the matching
tEXt value if any, advance by 12+length, stop after IEND or past the
end. -/
def readPngLoop (data key : List ℕ) (offset : ℕ) :
    Except JsErr (Option (List ℕ)) :=
  if _h : offset < data.length then
    if offset + 4 ≤ data.length then
      let length := val32 ((data.drop offset).take 4)
      match tEXtHit data key offset length with
      | some v => .ok (some v)
      | none =>
          if pngTypeAt data offset = [73, 69, 78, 68] then .ok none
          else readPngLoop data key (offset + 12 + length)
    else .error .rangeError
  else .ok none
termination_by data.length - offset
decreasing_by omega

/-- readPngMetadata (part_003 lines 74-111): walk chunks from just after
the 8-byte signature. -/
def readPngMetadata (pngBuffer key : List ℕ) :
    Except JsErr (Option (List ℕ)) :=
  readPngLoop pngBuffer key 8

/-- The chunk walk stays in bounds: at every visited offset, either the
walk has ended or the 4-byte length field lies inside the buffer. -/
def readPngSafe (data : List ℕ) (offset : ℕ) : Bool :=
  if _h : offset < data.length then
    if offset + 4 ≤ data.length then
      let length := val32 ((data.drop offset).take 4)
      if pngTypeAt data offset = [73, 69, 78, 68] then true
      else readPngSafe data (offset + 12 + length)
    else false
  else true
termination_by data.length - offset
decreasing_by omega

/-- The buffer written by the NUL-key counterexample: signature, IHDR,
the inserted tEXt chunk with body 0x00 0x00 'A', and the IEND chunk. -/
def c6OutBuffer : List ℕ :=
  [137, 80, 78, 71, 13, 10, 26, 10,
   0, 0, 0, 13, 73, 72, 68, 82,
   0, 0, 0, 0, 0, 0, 0, 0, 0, 0, 0, 0, 0, 0, 0, 0, 0,
   0, 0, 0, 3, 116, 69, 88, 116, 0, 0, 65, 55, 59, 114, 94,
   0, 0, 0, 0, 73, 69, 78, 68, 0, 0, 0, 0]

/-- The sequencer state held by the useSequencer hook: the collection, the
active index, the playing flag and the playback interval. -/
structure SeqState where
  sequences : List Sequence
  activeIndex : ℕ
  isPlaying : Bool
  timingMs : ℚ

/-- Math.max over a non-empty list of ids (the callers guard emptiness,
so the -Infinity empty case is never taken). -/
def jsMaxList : List ℚ → ℚ
  | [] => 0
  | a :: l => l.foldl max a

/-- The fresh id rule: max(existing ids) + 1, or 1 for an empty
collection. -/
def newSeqId (sequences : List Sequence) : ℚ :=
  if sequences.length > 0 then jsMaxList (sequences.map (·.id)) + 1 else 1

/-- JS String(q) for the template literal; only integral ids are ever
printed by this program, so fractional float printing is left opaque. -/
def jsNumToString (q : ℚ) : String :=
  if q.den = 1 then jsIntToString q.num else "non-integer"

/-- new Array(v).fill(0): a natural-number length below 2^32 yields that
many zeros; any other number throws a RangeError; a non-number v yields
the one-element array [v] whose fill gives [0]. -/
def jsNewArrayFill0 : Json → Except JsErr (List ℤ)
  | .num q =>
      if 0 ≤ q ∧ q.den = 1 ∧ q.num < 2 ^ 32
      then .ok (List.replicate q.num.toNat 0)
      else .error .rangeError
  | _ => .ok [0]

/-- addSequence (useSequencer.ts lines 64-86): clone the active (or
first) item's config, build a zero data array of its sequenceLength,
append, select the new item, stop playback. -/
def addSequence (st : SeqState) : Except JsErr SeqState :=
  let newId := newSeqId st.sequences
  let activeSeq := match st.sequences.get? st.activeIndex with
    | some s => some s
    | none => st.sequences.get? 0
  let baseConfig := match activeSeq with
    | some s => s.geoConfig
    | none => SUNFLOWER_PRESET
  match jsNewArrayFill0 (baseConfig GeoKey.sequenceLength) with
  | .error e => .error e
  | .ok data =>
      let newSeq : Sequence :=
        { id := newId, name := "Card " ++ jsNumToString newId,
          description := "New sequence pattern", data := data,
          geoConfig := baseConfig }
      let newSequences := st.sequences ++ [newSeq]
      .ok { st with
        sequences := newSequences,
        activeIndex := newSequences.length - 1,
        isPlaying := false }

/-- importSequence (lines 88-102): keep the imported item but give it a
fresh id, append, select it, stop playback. -/
def importSequence (st : SeqState) (importedSeq : Sequence) : SeqState :=
  let newId := newSeqId st.sequences
  let newSeq : Sequence := { importedSeq with id := newId }
  let newSequences := st.sequences ++ [newSeq]
  { st with
    sequences := newSequences,
    activeIndex := newSequences.length - 1,
    isPlaying := false }

/-- duplicateSequence (lines 104-123): copy the item with the given id
under a fresh id and "(Copy)" name, append, select it, stop playback;
missing id is a no-op. -/
def duplicateSequence (st : SeqState) (id : ℚ) : SeqState :=
  match st.sequences.find? (fun s => s.id == id) with
  | none => st
  | some sourceSeq =>
      let newId := newSeqId st.sequences
      let newSeq : Sequence :=
        { sourceSeq with id := newId, name := sourceSeq.name ++ " (Copy)" }
      let newSequences := st.sequences ++ [newSeq]
      { st with
        sequences := newSequences,
        activeIndex := newSequences.length - 1,
        isPlaying := false }

/-- deleteSequence (lines 125-142): refuse to empty the collection,
remove by id, and pull activeIndex back into range when the deletion was
at or before it. -/
def deleteSequence (st : SeqState) (id : ℚ) : SeqState :=
  if st.sequences.length ≤ 1 then st
  else
    match st.sequences.findIdx? (fun s => s.id == id) with
    | none => st
    | some idxToDelete =>
        let newSequences := st.sequences.filter (fun s => !(s.id == id))
        let newActive :=
          if newSequences.length ≤ st.activeIndex
          then max 0 (newSequences.length - 1)
          else if idxToDelete < st.activeIndex then st.activeIndex - 1
          else st.activeIndex
        { st with
          sequences := newSequences,
          activeIndex := newActive }

/-- reorderSequences (lines 144-159): splice the item from one position
to another and re-select the previously active item by id.  An
out-of-range activeIndex throws reading .id of undefined; an out-of-range
fromIndex leaves an undefined hole that makes the findIndex callback
throw. -/
def reorderSequences (st : SeqState) (fromIndex toIndex : ℕ) :
    Except JsErr SeqState :=
  if fromIndex = toIndex then .ok st
  else
    match st.sequences.get? st.activeIndex with
    | none => .error .typeError
    | some act =>
        match st.sequences.get? fromIndex with
        | none => .error .typeError
        | some moved =>
            let removed := st.sequences.eraseIdx fromIndex
            let newSequences :=
              removed.insertIdx (min toIndex removed.length) moved
            match newSequences.findIdx? (fun s => s.id == act.id) with
            | some newActiveIndex =>
                .ok { st with
                      sequences := newSequences,
                      activeIndex := newActiveIndex }
            | none => .ok { st with sequences := newSequences }

/-- Items and states used by the C7 witness. -/
def c7ItemA : Sequence :=
  { id := 1, name := "A", description := "", data := [0],
    geoConfig := SUNFLOWER_PRESET }

def c7ItemB : Sequence :=
  { id := 2, name := "B", description := "", data := [1],
    geoConfig := SUNFLOWER_PRESET }

def c7StateOne : SeqState :=
  { sequences := [c7ItemA], activeIndex := 0, isPlaying := false,
    timingMs := 1500 }

def c7StateTwo : SeqState :=
  { sequences := [c7ItemA, c7ItemB], activeIndex := 1, isPlaying := false,
    timingMs := 1500 }

/-- The three-item state of the C8 witness (ids 1, 2, 3; active id 2). -/
def c8State : SeqState :=
  { sequences :=
      [{ id := 1, name := "A", description := "", data := [0],
         geoConfig := SUNFLOWER_PRESET },
       { id := 2, name := "B", description := "", data := [1],
         geoConfig := SUNFLOWER_PRESET },
       { id := 3, name := "C", description := "", data := [2],
         geoConfig := SUNFLOWER_PRESET }],
    activeIndex := 1, isPlaying := false, timingMs := 1500 }

/-- framesPerScene (useVideoExport.ts line 89):
Math.round((timingMs / 1000) * 30) at the fixed 30 fps rate. -/
def framesPerScene (timingMs : ℚ) : ℤ :=
  jsRound (timingMs / 1000 * 30)

/-- The inner frame loop of exportVideo (lines 135-146): one
(sceneIndex, frameInScene, timestamp) submission per sub-frame, advancing
the running timestamp by the 1/30-second frame duration; returns the
submissions and the final timestamp. -/
def sceneFrames (si fps : ℕ) (fi : ℕ) (ts : ℚ) : List (ℕ × ℕ × ℚ) × ℚ :=
  if fi < fps then
    let rest := sceneFrames si fps (fi + 1) (ts + 1 / 30)
    ((si, fi, ts) :: rest.1, rest.2)
  else ([], ts)
termination_by fps - fi

/-- The outer scene loop of exportVideo (lines 125-147). -/
def exportLoop (numScenes fps : ℕ) (si : ℕ) (ts : ℚ) : List (ℕ × ℕ × ℚ) :=
  if si < numScenes then
    let scene := sceneFrames si fps 0 ts
    scene.1 ++ exportLoop numScenes fps (si + 1) scene.2
  else []
termination_by numScenes - si

/-- The full submission schedule of exportVideo over the scene list,
starting at timestamp 0.  A negative rounded frames-per-scene runs zero
inner iterations (the for-loop guard fails). -/
def exportVideoFrames (numScenes : ℕ) (timingMs : ℚ) : List (ℕ × ℕ × ℚ) :=
  exportLoop numScenes (framesPerScene timingMs).toNat 0 0

theorem mem_GEO_KEYS (k : GeoKey) : k ∈ GEO_KEYS := by
  cases k <;> decide

theorem GEO_KEYS_nodup : GEO_KEYS.Nodup := by decide

theorem rev_geo_key (a : GeoKey) : REV_GEO_KEY_MAP (GEO_KEY_MAP a) = some a := by
  cases a <;> rfl

theorem jsEqPrim_true {a b : Json} (h : jsEqPrim a b = true) : a = b := by
  cases a <;> cases b <;> simp_all [jsEqPrim]

theorem jsEqPrim_refl {a : Json} (h : a.isPrim) : jsEqPrim a a = true := by
  cases a <;> simp_all [jsEqPrim, Json.isPrim]

theorem smartRound_isPrim {a : Json} (h : a.isPrim) : (smartRound a).isPrim := by
  cases a with
  | num q =>
      simp only [smartRound]
      split <;> trivial
  | str s => exact h
  | bool b => exact h
  | null => exact h.elim
  | arr xs => exact h.elim
  | obj fs => exact h.elim

theorem jsRound_int (m : ℤ) : jsRound (m : ℚ) = m := by
  unfold jsRound
  rw [Int.floor_int_add]
  norm_num

/-- An integer-valued rational scaled by 1000 is recovered exactly by the
3-decimal rounding step. -/
theorem toFixed_scale_exact (r : ℚ) (h : (r * 1000).den = 1) :
    ((jsRound (r * 1000) : ℚ)) / 1000 = r := by
  have hz : ((r * 1000).num : ℚ) = r * 1000 := by
    conv_rhs => rw [← Rat.num_div_den (r * 1000)]
    rw [h]; norm_num
  have hr : jsRound (r * 1000) = (r * 1000).num := by
    conv_lhs => rw [← hz]
    exact jsRound_int _
  rw [hr, hz]
  field_simp

/-- A rational with at most 3 decimal places is a fixed point of
smartRound. -/
theorem smartRound_fixed (q : ℚ) (h : (q * 1000).den = 1) :
    smartRound (.num q) = .num q := by
  have hz : ((q * 1000).num : ℚ) = q * 1000 := by
    conv_rhs => rw [← Rat.num_div_den (q * 1000)]
    rw [h]; norm_num
  by_cases hint : |q - (jsRound q : ℚ)| < 1/10000
  · have hqn : q = (jsRound q : ℚ) := by
      set n := jsRound q with hn
      set z := (q * 1000).num with hzz
      have hq : q = (z : ℚ) / 1000 := by
        field_simp
        linarith [hz]
      rw [hq] at hint
      have h3 : ((z - n * 1000 : ℤ) : ℚ) = ((z : ℚ) / 1000 - n) * 1000 := by
        push_cast; ring
      have h2 : |((z - n * 1000 : ℤ) : ℚ)| < 1/10 := by
        rw [h3, abs_mul]
        have : |(1000 : ℚ)| = 1000 := by norm_num
        rw [this]
        nlinarith [abs_nonneg ((z : ℚ) / 1000 - n)]
      rw [abs_lt] at h2
      obtain ⟨h4, h5⟩ := h2
      have h6 : z - n * 1000 = 0 := by
        by_contra hne
        rcases lt_or_gt_of_ne hne with hlt | hgt
        · have : ((z - n * 1000 : ℤ) : ℚ) ≤ -1 := by exact_mod_cast Int.le_sub_one_of_lt hlt
          linarith
        · have : (1 : ℚ) ≤ ((z - n * 1000 : ℤ) : ℚ) := by exact_mod_cast hgt
          linarith
      have h7 : z = n * 1000 := by omega
      rw [hq, h7]; push_cast; ring
    simp only [smartRound, if_pos hint]
    rw [← hqn]
  · simp only [smartRound, if_neg hint]
    congr 1
    unfold jsToFixed3
    by_cases hq0 : q < 0
    · rw [if_pos hq0]
      have hden : (-q * 1000).den = 1 := by
        rw [neg_mul, Rat.den_neg_eq_den, h]
      rw [toFixed_scale_exact (-q) hden]
      ring
    · rw [if_neg hq0]
      exact toFixed_scale_exact q h

/-! ### The diff / inflate round trip -/

/-- Folding applyGeoEntry over a filterMap of distinct keys updates exactly
the selected fields. -/
theorem foldl_applyGeoEntry (c : GeoKey → Bool) (val : GeoKey → Json) :
    ∀ (ks : List GeoKey), ks.Nodup → ∀ (base : GeoConfig) (k : GeoKey),
      ((ks.filterMap (fun key =>
          if c key then some (GEO_KEY_MAP key, val key) else none)).foldl
        applyGeoEntry base) k
      = if k ∈ ks ∧ c k then val k else base k := by
  intro ks
  induction ks with
  | nil =>
      intro _ base k
      simp
  | cons a ks ih =>
      intro hnd base k
      rcases List.nodup_cons.mp hnd with ⟨ha, hnd'⟩
      rw [List.filterMap_cons]
      by_cases hca : c a
      · rw [if_pos hca, List.foldl_cons, ih hnd']
        have hupd : applyGeoEntry base (GEO_KEY_MAP a, val a)
            = fun k' => if k' = a then val a else base k' := by
          unfold applyGeoEntry
          simp [rev_geo_key a]
        rw [hupd]
        by_cases hk : k = a
        · subst hk
          simp [ha, hca]
        · simp only [hk, if_false]
          by_cases hmem : k ∈ ks ∧ c k
          · simp [hmem, List.mem_cons, hk]
          · simp only [hmem, if_false]
            rw [if_neg (by
              rintro ⟨hm, hc'⟩
              rcases List.mem_cons.mp hm with h | h
              · exact hk h
              · exact hmem ⟨h, hc'⟩)]
      · rw [if_neg hca, ih hnd']
        by_cases hk : k = a
        · subst hk
          simp [ha, hca]
        · have : (k ∈ a :: ks ∧ c k) ↔ (k ∈ ks ∧ c k) := by
            constructor
            · rintro ⟨hm, hc'⟩
              rcases List.mem_cons.mp hm with h | h
              · exact absurd h hk
              · exact ⟨h, hc'⟩
            · rintro ⟨hm, hc'⟩
              exact ⟨List.mem_cons_of_mem _ hm, hc'⟩
          rw [if_congr this rfl rfl]

/-- Inflating a minified diff over a baseline: fields that rounded equal
keep the inflation baseline's value, the rest take the rounded target. -/
theorem inflate_minify (t b base : GeoConfig) (k : GeoKey) :
    inflateGeoDiff (.js (.obj (minifyGeoDiff t b))) base k
    = if jsEqPrim (smartRound (t k)) (smartRound (b k)) then base k
      else smartRound (t k) := by
  have hfm : minifyGeoDiff t b = GEO_KEYS.filterMap (fun key =>
      if !jsEqPrim (smartRound (t key)) (smartRound (b key))
      then some (GEO_KEY_MAP key, smartRound (t key)) else none) := by
    unfold minifyGeoDiff
    apply List.filterMap_congr
    intro key _
    by_cases hc : jsEqPrim (smartRound (t key)) (smartRound (b key)) <;>
      simp [hc]
  have hinf : inflateGeoDiff (.js (.obj (minifyGeoDiff t b))) base
      = (minifyGeoDiff t b).foldl applyGeoEntry base := rfl
  rw [hinf, hfm,
    foldl_applyGeoEntry _ _ GEO_KEYS GEO_KEYS_nodup base k]
  simp only [mem_GEO_KEYS, true_and, Bool.not_eq_true']
  by_cases hc : jsEqPrim (smartRound (t k)) (smartRound (b k)) <;> simp [hc]

/-- Every field of the modelled baseline preset is a primitive value. -/
theorem preset_prim (k : GeoKey) : (SUNFLOWER_PRESET k).isPrim := by
  cases k <;> trivial

/-- Every field of the modelled baseline preset is a fixed point of the
documented rounding. -/
theorem preset_fix (k : GeoKey) :
    smartRound (SUNFLOWER_PRESET k) = SUNFLOWER_PRESET k := by
  cases k <;>
    first
      | rfl
      | (simp only [SUNFLOWER_PRESET]; exact smartRound_fixed _ (by norm_num))

/-- Decoding the global diff of a v4 token recovers the active config with
every field rounded (the preset's fields are primitives fixed under the
rounding). -/
theorem decode_global (g : GeoConfig) :
    inflateGeoDiff (.js (.obj (minifyGeoDiff g SUNFLOWER_PRESET)))
      SUNFLOWER_PRESET = fun k => smartRound (g k) := by
  funext k
  rw [inflate_minify]
  by_cases hc : jsEqPrim (smartRound (g k)) (smartRound (SUNFLOWER_PRESET k))
  · rw [if_pos hc]
    have heq := jsEqPrim_true hc
    rw [← preset_fix k, ← heq]
  · rw [if_neg hc]

theorem mapM_ok {α β : Type} (f : α → Except JsErr β) (g : α → β) :
    ∀ l : List α, (∀ x ∈ l, f x = .ok (g x)) → l.mapM f = .ok (l.map g) := by
  intro l
  induction l with
  | nil => intro _; rfl
  | cons a l ih =>
      intro h
      rw [List.mapM_cons, h a (List.mem_cons_self a l),
        ih (fun x hx => h x (List.mem_cons_of_mem _ hx))]
      rfl

theorem jsOr_num (q : ℚ) (d : Json) :
    jsOr (.js (.num q)) d = if q = 0 then d else .num q := by
  unfold jsOr truthy
  by_cases h : q = 0 <;> simp [h]

theorem jsOr_str (t : String) (d : Json) :
    jsOr (.js (.str t)) d = if t = "" then d else .str t := by
  unfold jsOr truthy
  by_cases h : t = "" <;> simp [h]

/-- What decodeSeqV4 does to an item object built by compressConfig. -/
theorem decodeSeqV4_compress (rand : ℚ) (g : GeoConfig) (s : Sequence) :
    decodeSeqV4 rand (fun k => smartRound (g k)) (compressSeqObj g s)
    = .ok { id := if s.id = 0 then .num rand else .num s.id,
            name := if s.name = "" then .str "Sequence" else .str s.name,
            description := .str s.description,
            data := (jsJoinData s.data).toList.map charParseInt10,
            geoConfig := itemDecodedGeo g s.geoConfig } := by
  have hgeo_nonempty :
      inflateGeoDiff (.js (.obj (minifyGeoDiff s.geoConfig g)))
        (fun k => smartRound (g k)) = itemDecodedGeo g s.geoConfig := by
    funext k
    rw [inflate_minify]
    rfl
  have hgeo_empty : minifyGeoDiff s.geoConfig g = [] →
      (fun k => smartRound (g k)) = itemDecodedGeo g s.geoConfig := by
    intro hnil
    funext k
    unfold itemDecodedGeo
    have := (List.filterMap_eq_nil_iff.mp hnil) k (mem_GEO_KEYS k)
    simp only at this
    by_cases hc : jsEqPrim (smartRound (s.geoConfig k)) (smartRound (g k))
    · rw [if_pos hc]
    · simp [hc] at this
  rcases Classical.em (s.description = "") with hd | hd <;>
    rcases Nat.eq_zero_or_pos (minifyGeoDiff s.geoConfig g).length with hz | hpos
  -- description empty, diff empty
  · have hnil := List.length_eq_zero.mp hz
    have e1 : compressSeqObj g s
        = .obj [("i", .num s.id), ("n", .str s.name),
                ("D", .str (jsJoinData s.data))] := by
      simp [compressSeqObj, hd, hnil]
    have e2 : decodeSeqV4 rand (fun k => smartRound (g k))
        (.obj [("i", .num s.id), ("n", .str s.name),
               ("D", .str (jsJoinData s.data))])
        = .ok { id := jsOr (.js (.num s.id)) (.num rand),
                name := jsOr (.js (.str s.name)) (.str "Sequence"),
                description := .str "",
                data := (jsJoinData s.data).toList.map charParseInt10,
                geoConfig := fun k => smartRound (g k) } := rfl
    rw [e1, e2, jsOr_num, jsOr_str, hgeo_empty hnil, hd]
  -- description empty, diff non-empty
  · have e1 : compressSeqObj g s
        = .obj [("i", .num s.id), ("n", .str s.name),
                ("D", .str (jsJoinData s.data)),
                ("g", .obj (minifyGeoDiff s.geoConfig g))] := by
      simp [compressSeqObj, hd, hpos]
    have e2 : decodeSeqV4 rand (fun k => smartRound (g k))
        (.obj [("i", .num s.id), ("n", .str s.name),
               ("D", .str (jsJoinData s.data)),
               ("g", .obj (minifyGeoDiff s.geoConfig g))])
        = .ok { id := jsOr (.js (.num s.id)) (.num rand),
                name := jsOr (.js (.str s.name)) (.str "Sequence"),
                description := .str "",
                data := (jsJoinData s.data).toList.map charParseInt10,
                geoConfig := inflateGeoDiff
                  (.js (.obj (minifyGeoDiff s.geoConfig g)))
                  (fun k => smartRound (g k)) } := rfl
    rw [e1, e2, jsOr_num, jsOr_str, hgeo_nonempty, hd]
  -- description non-empty, diff empty
  · have hnil := List.length_eq_zero.mp hz
    have e1 : compressSeqObj g s
        = .obj [("i", .num s.id), ("n", .str s.name),
                ("D", .str (jsJoinData s.data)),
                ("d", .str s.description)] := by
      simp [compressSeqObj, hd, hnil]
    have e2 : decodeSeqV4 rand (fun k => smartRound (g k))
        (.obj [("i", .num s.id), ("n", .str s.name),
               ("D", .str (jsJoinData s.data)),
               ("d", .str s.description)])
        = .ok { id := jsOr (.js (.num s.id)) (.num rand),
                name := jsOr (.js (.str s.name)) (.str "Sequence"),
                description := jsOr (.js (.str s.description)) (.str ""),
                data := (jsJoinData s.data).toList.map charParseInt10,
                geoConfig := fun k => smartRound (g k) } := rfl
    rw [e1, e2, jsOr_num, jsOr_str, jsOr_str, if_neg hd, hgeo_empty hnil]
  -- description non-empty, diff non-empty
  · have e1 : compressSeqObj g s
        = .obj [("i", .num s.id), ("n", .str s.name),
                ("D", .str (jsJoinData s.data)),
                ("d", .str s.description),
                ("g", .obj (minifyGeoDiff s.geoConfig g))] := by
      simp [compressSeqObj, hd, hpos]
    have e2 : decodeSeqV4 rand (fun k => smartRound (g k))
        (.obj [("i", .num s.id), ("n", .str s.name),
               ("D", .str (jsJoinData s.data)),
               ("d", .str s.description),
               ("g", .obj (minifyGeoDiff s.geoConfig g))])
        = .ok { id := jsOr (.js (.num s.id)) (.num rand),
                name := jsOr (.js (.str s.name)) (.str "Sequence"),
                description := jsOr (.js (.str s.description)) (.str ""),
                data := (jsJoinData s.data).toList.map charParseInt10,
                geoConfig := inflateGeoDiff
                  (.js (.obj (minifyGeoDiff s.geoConfig g)))
                  (fun k => smartRound (g k)) } := rfl
    rw [e1, e2, jsOr_num, jsOr_str, jsOr_str, if_neg hd, hgeo_nonempty]

theorem mapM_map_ok {α β γ : Type} (h : α → β) (f : β → Except JsErr γ)
    (gd : α → γ) :
    ∀ l : List α, (∀ x ∈ l, f (h x) = .ok (gd x))
      → (l.map h).mapM f = .ok (l.map gd) := by
  intro l
  induction l with
  | nil => intro _; rfl
  | cons a l ih =>
      intro hok
      rw [List.map_cons, List.mapM_cons, hok a (List.mem_cons_self a l),
        ih (fun x hx => hok x (List.mem_cons_of_mem _ hx))]
      rfl

/-- Decoding the payload built by compressConfig, in closed form. -/
theorem decompress_compress (rand t : ℚ) (g : GeoConfig)
    (seqs : List Sequence) :
    decompressPayload rand (compressConfig g seqs t)
    = .ok (some
        { geoConfig := .full (fun k => smartRound (g k)),
          sequences := seqs.map (fun s =>
            ({ id := if s.id = (0 : ℚ) then .num rand else .num s.id,
               name := if s.name = "" then .str "Sequence" else .str s.name,
               description := .str s.description,
               data := (jsJoinData s.data).toList.map charParseInt10,
               geoConfig := itemDecodedGeo g s.geoConfig } : DecodedSeq)),
          timingMs := .js (.num t) }) := by
  have e2 : decompressPayload rand (compressConfig g seqs t)
      = (do
          let sequences ← (seqs.map (compressSeqObj g)).mapM
            (decodeSeqV4 rand
              (inflateGeoDiff (.js (.obj (minifyGeoDiff g SUNFLOWER_PRESET)))
                SUNFLOWER_PRESET))
          Except.ok (some
            { geoConfig := .full
                (inflateGeoDiff (.js (.obj (minifyGeoDiff g SUNFLOWER_PRESET)))
                  SUNFLOWER_PRESET),
              sequences := sequences,
              timingMs := .js (.num t) })) := rfl
  rw [e2, decode_global,
    mapM_map_ok (compressSeqObj g)
      (decodeSeqV4 rand (fun k => smartRound (g k)))
      (fun s =>
        ({ id := if s.id = 0 then .num rand else .num s.id,
           name := if s.name = "" then .str "Sequence" else .str s.name,
           description := .str s.description,
           data := (jsJoinData s.data).toList.map charParseInt10,
           geoConfig := itemDecodedGeo g s.geoConfig } : DecodedSeq))
      seqs (fun s _ => decodeSeqV4_compress rand g s)]
  rfl

/-- Decoded item geometry is the rounded original geometry. -/
theorem itemDecodedGeo_eq (g tcfg : GeoConfig) :
    itemDecodedGeo g tcfg = fun k => smartRound (tcfg k) := by
  funext k
  unfold itemDecodedGeo
  by_cases hc : jsEqPrim (smartRound (tcfg k)) (smartRound (g k))
  · rw [if_pos hc, ← jsEqPrim_true hc]
  · rw [if_neg hc]

/-- C1: encoding a fully-populated active GeometryConfig and any items
with compressConfig and decoding with decompressConfig yields a
geometryConfig — the active one and each item's — whose every field is the
original passed through the documented rounding smartRound (near-integers
collapse to the integer, other numbers round to 3 decimals, booleans and
enum strings unchanged). -/
theorem c1_geo_roundtrip (g : GeoConfig) (seqs : List Sequence) (t rand : ℚ)
    (transport : String → Except JsErr Json) (tok : String)
    (htr : transport tok = .ok (compressConfig g seqs t)) :
    ∃ res : DecodeResult,
      decompressConfig transport rand tok = some res ∧
      res.geoConfig = .full (fun k => smartRound (g k)) ∧
      res.sequences.map DecodedSeq.geoConfig
        = seqs.map (fun s k => smartRound (s.geoConfig k)) := by
  have hbind : (do
      let payload ← transport tok
      decompressPayload rand payload)
      = decompressPayload rand (compressConfig g seqs t) := by
    rw [htr]
    rfl
  refine ⟨{ geoConfig := .full (fun k => smartRound (g k)),
            sequences := seqs.map (fun s =>
              ({ id := if s.id = (0 : ℚ) then .num rand else .num s.id,
                 name := if s.name = "" then .str "Sequence" else .str s.name,
                 description := .str s.description,
                 data := (jsJoinData s.data).toList.map charParseInt10,
                 geoConfig := itemDecodedGeo g s.geoConfig } : DecodedSeq)),
            timingMs := .js (.num t) }, ?_, rfl, ?_⟩
  · unfold decompressConfig
    rw [hbind, decompress_compress]
  · show (seqs.map (fun s =>
        ({ id := if s.id = (0 : ℚ) then .num rand else .num s.id,
           name := if s.name = "" then .str "Sequence" else .str s.name,
           description := .str s.description,
           data := (jsJoinData s.data).toList.map charParseInt10,
           geoConfig := itemDecodedGeo g s.geoConfig } : DecodedSeq))).map
          DecodedSeq.geoConfig
        = seqs.map (fun s k => smartRound (s.geoConfig k))
    rw [List.map_map]
    apply List.map_congr_left
    intro s _
    exact itemDecodedGeo_eq g s.geoConfig

/-- Witness for C1 at a concrete config and item list. -/
theorem c1_geo_roundtrip_witness :
    ∃ res : DecodeResult,
      decompressConfig
        (fun _ => .ok (compressConfig SUNFLOWER_PRESET
          [{ id := 1, name := "Card 1", description := "",
             data := [0, 1, 2], geoConfig := SUNFLOWER_PRESET }] 1500))
        0 "tok" = some res ∧
      res.geoConfig = .full (fun k => smartRound (SUNFLOWER_PRESET k)) ∧
      res.sequences.map DecodedSeq.geoConfig
        = [{ id := 1, name := "Card 1", description := "",
             data := [0, 1, 2],
             geoConfig := SUNFLOWER_PRESET : Sequence }].map
            (fun s k => smartRound (s.geoConfig k)) :=
  c1_geo_roundtrip SUNFLOWER_PRESET _ 1500 0 _ "tok" rfl

/-- C5: an item whose geometry agrees with the active config field-for-field
after the comparison rounding is serialized by compressConfig without its
per-item diff: the item object inside the "s" array of the v4 payload has
no "g" key. -/
theorem c5_diff_omitted (g : GeoConfig) (seqs : List Sequence) (t : ℚ)
    (i : ℕ) (hi : i < seqs.length)
    (hp : ∀ k, ((seqs.get ⟨i, hi⟩).geoConfig k).isPrim)
    (heq : ∀ k, smartRound ((seqs.get ⟨i, hi⟩).geoConfig k)
      = smartRound (g k)) :
    member (compressConfig g seqs t) "s"
      = .ok (.js (.arr (seqs.map (compressSeqObj g)))) ∧
    (seqs.map (compressSeqObj g)).get? i
      = some (compressSeqObj g (seqs.get ⟨i, hi⟩)) ∧
    jsonHasKey (compressSeqObj g (seqs.get ⟨i, hi⟩)) "g" = false := by
  refine ⟨rfl, ?_, ?_⟩
  · rw [List.get?_map, List.get?_eq_get hi]
    rfl
  · have hdiff : minifyGeoDiff (seqs.get ⟨i, hi⟩).geoConfig g = [] := by
      apply List.filterMap_eq_nil_iff.mpr
      intro k _
      simp only
      have hprim : (smartRound (g k)).isPrim :=
        heq k ▸ smartRound_isPrim (hp k)
      rw [heq k, jsEqPrim_refl hprim]
      simp
    rcases Classical.em ((seqs.get ⟨i, hi⟩).description = "") with hd | hd
    · have e1 : compressSeqObj g (seqs.get ⟨i, hi⟩)
          = .obj [("i", .num (seqs.get ⟨i, hi⟩).id),
                  ("n", .str (seqs.get ⟨i, hi⟩).name),
                  ("D", .str (jsJoinData (seqs.get ⟨i, hi⟩).data))] := by
        simp [compressSeqObj, hd, hdiff]
        exact ⟨hd, hdiff⟩
      rw [e1]
      rfl
    · have e1 : compressSeqObj g (seqs.get ⟨i, hi⟩)
          = .obj [("i", .num (seqs.get ⟨i, hi⟩).id),
                  ("n", .str (seqs.get ⟨i, hi⟩).name),
                  ("D", .str (jsJoinData (seqs.get ⟨i, hi⟩).data)),
                  ("d", .str (seqs.get ⟨i, hi⟩).description)] := by
        simp only [compressSeqObj, hdiff]
        rw [if_pos (by exact hd)]
        simp
      rw [e1]
      rfl

/-- Witness for C5: a one-item collection whose item reuses the active
config verbatim. -/
theorem c5_diff_omitted_witness :
    member (compressConfig SUNFLOWER_PRESET
        [{ id := 1, name := "Card 1", description := "", data := [0],
           geoConfig := SUNFLOWER_PRESET }] 1500) "s"
      = .ok (.js (.arr
          ([{ id := 1, name := "Card 1", description := "", data := [0],
              geoConfig := SUNFLOWER_PRESET : Sequence }].map
            (compressSeqObj SUNFLOWER_PRESET)))) ∧
    ([{ id := 1, name := "Card 1", description := "", data := [0],
        geoConfig := SUNFLOWER_PRESET : Sequence }].map
        (compressSeqObj SUNFLOWER_PRESET)).get? 0
      = some (compressSeqObj SUNFLOWER_PRESET
          ([{ id := 1, name := "Card 1", description := "", data := [0],
              geoConfig := SUNFLOWER_PRESET : Sequence }].get
            ⟨0, by norm_num⟩)) ∧
    jsonHasKey (compressSeqObj SUNFLOWER_PRESET
        ([{ id := 1, name := "Card 1", description := "", data := [0],
            geoConfig := SUNFLOWER_PRESET : Sequence }].get
          ⟨0, by norm_num⟩)) "g" = false :=
  c5_diff_omitted SUNFLOWER_PRESET _ 1500 0 (by norm_num)
    (fun k => preset_prim k) (fun k => rfl)

theorem foldl_append_data (l : List String) :
    ∀ acc : String,
      (l.foldl (fun r s => r ++ s) acc).data
        = acc.data ++ (l.map String.data).join := by
  induction l with
  | nil => intro acc; simp
  | cons x l ih =>
      intro acc
      rw [List.foldl_cons, ih]
      simp [String.data_append, List.append_assoc]

theorem data_join (l : List String) :
    (String.join l).data = (l.map String.data).join := by
  have : String.join l = l.foldl (fun r s => r ++ s) "" := rfl
  rw [this, foldl_append_data]
  simp

/-- A list of single-digit values survives the join-then-splitParse data
serialization of the v4 codec exactly. -/
theorem digit_join_parse (data : List ℤ)
    (h : ∀ d ∈ data, 0 ≤ d ∧ d ≤ 9) :
    (jsJoinData data).toList.map charParseInt10
    = data.map (fun d : ℤ => DataElem.json (.num (d : ℚ))) := by
  induction data with
  | nil => rfl
  | cons d rest ih =>
      have hcons : jsJoinData (d :: rest)
          = jsIntToString d ++ jsJoinData rest := by
        apply String.ext
        show (String.join (List.map jsIntToString (d :: rest))).data = _
        rw [List.map_cons, data_join, String.data_append]
        show _ = (jsIntToString d).data ++ (String.join (List.map jsIntToString rest)).data
        rw [data_join]
        simp
      rw [hcons]
      have happ : (jsIntToString d ++ jsJoinData rest).toList
          = (jsIntToString d).toList ++ (jsJoinData rest).toList :=
        String.data_append _ _
      rw [happ, List.map_append,
        ih (fun x hx => h x (List.mem_cons_of_mem _ hx)), List.map_cons]
      obtain ⟨h0, h9⟩ := h d (List.mem_cons_self _ _)
      interval_cases d <;> rfl

/-- C4: when every element of every item's data array is an integer
between 0 and 9, decoding the compressConfig token restores each item's
data array exactly (each value having been serialized as exactly one
character of the concatenated digit string). -/
theorem c4_single_digit_data (g : GeoConfig) (seqs : List Sequence)
    (t rand : ℚ) (transport : String → Except JsErr Json) (tok : String)
    (htr : transport tok = .ok (compressConfig g seqs t))
    (hdig : ∀ s ∈ seqs, ∀ d ∈ s.data, 0 ≤ d ∧ d ≤ 9) :
    ∃ res : DecodeResult,
      decompressConfig transport rand tok = some res ∧
      res.sequences.map DecodedSeq.data
        = seqs.map (fun s =>
            s.data.map (fun d : ℤ => DataElem.json (.num (d : ℚ)))) := by
  have hbind : (do
      let payload ← transport tok
      decompressPayload rand payload)
      = decompressPayload rand (compressConfig g seqs t) := by
    rw [htr]
    rfl
  refine ⟨{ geoConfig := .full (fun k => smartRound (g k)),
            sequences := seqs.map (fun s =>
              ({ id := if s.id = (0 : ℚ) then .num rand else .num s.id,
                 name := if s.name = "" then .str "Sequence" else .str s.name,
                 description := .str s.description,
                 data := (jsJoinData s.data).toList.map charParseInt10,
                 geoConfig := itemDecodedGeo g s.geoConfig } : DecodedSeq)),
            timingMs := .js (.num t) }, ?_, ?_⟩
  · unfold decompressConfig
    rw [hbind, decompress_compress]
  · show (seqs.map (fun s =>
        ({ id := if s.id = (0 : ℚ) then .num rand else .num s.id,
           name := if s.name = "" then .str "Sequence" else .str s.name,
           description := .str s.description,
           data := (jsJoinData s.data).toList.map charParseInt10,
           geoConfig := itemDecodedGeo g s.geoConfig } : DecodedSeq))).map
          DecodedSeq.data
        = seqs.map (fun s =>
            s.data.map (fun d : ℤ => DataElem.json (.num (d : ℚ))))
    rw [List.map_map]
    apply List.map_congr_left
    intro s hs
    exact digit_join_parse s.data (hdig s hs)

/-- Witness for C4 at a concrete single-digit collection. -/
theorem c4_single_digit_data_witness :
    ∃ res : DecodeResult,
      decompressConfig
        (fun _ => .ok (compressConfig SUNFLOWER_PRESET
          [{ id := 1, name := "Card 1", description := "",
             data := [0, 9, 5, 3], geoConfig := SUNFLOWER_PRESET }] 1500))
        0 "tok" = some res ∧
      res.sequences.map DecodedSeq.data
        = [{ id := 1, name := "Card 1", description := "",
             data := [0, 9, 5, 3],
             geoConfig := SUNFLOWER_PRESET : Sequence }].map
            (fun s => s.data.map (fun d : ℤ => DataElem.json (.num (d : ℚ)))) :=
  c4_single_digit_data SUNFLOWER_PRESET _ 1500 0 _ "tok" rfl
    (by
      intro s hs d hd
      rcases List.mem_singleton.mp hs with rfl
      fin_cases hd <;> norm_num)

/-- C3: for every input string — non-base64 text, base64 of non-JSON,
JSON of no recognized version shape, wrongly-typed payload fields —
decompressConfig returns a decoded result or null, never an escaped
exception: the try/catch converts every error of the body (modelled
explicitly in decompressPayload and the transport) into null. -/
theorem c3_decode_never_throws (transport : String → Except JsErr Json)
    (rand : ℚ) (encoded : String) :
    decompressConfig transport rand encoded = none ∨
    ∃ res : DecodeResult,
      decompressConfig transport rand encoded = some res := by
  cases hres : (do
      let payload ← transport encoded
      decompressPayload rand payload : Except JsErr (Option DecodeResult)) with
  | error e =>
      left
      unfold decompressConfig
      rw [hres]
  | ok r =>
      cases r with
      | none =>
          left
          unfold decompressConfig
          rw [hres]
      | some res =>
          right
          exact ⟨res, by unfold decompressConfig; rw [hres]⟩

/-! ### The PNG tEXt chunk codec (src/unnamed/part_003) -/

/-- C2 counterexample: on a truncated 9-byte buffer (8-byte signature plus
one stray byte) the read loop's length read straddles the end of the
buffer and readPngMetadata throws a RangeError instead of returning the
not-found result. -/
theorem c2_throws_on_truncated :
    readPngMetadata (List.replicate 9 0) [] = .error .rangeError := by
  rw [readPngMetadata, readPngLoop]
  norm_num

/-- All in-bounds walks return without throwing, by induction along the
chunk walk. -/
theorem readPngLoop_ok_of_safe (data key : List ℕ) :
    ∀ n offset, data.length - offset ≤ n → readPngSafe data offset = true →
      ∃ r, readPngLoop data key offset = .ok r := by
  intro n
  induction n with
  | zero =>
      intro offset hle _
      have hout : ¬ offset < data.length := by omega
      exact ⟨none, by rw [readPngLoop]; simp [hout]⟩
  | succ n ih =>
      intro offset hle hsafe
      by_cases hlt : offset < data.length
      · rw [readPngSafe, dif_pos hlt] at hsafe
        by_cases hb : offset + 4 ≤ data.length
        · rw [if_pos hb] at hsafe
          rw [readPngLoop, dif_pos hlt, if_pos hb]
          show ∃ r, (match tEXtHit data key offset
                (val32 ((data.drop offset).take 4)) with
              | some v => Except.ok (some v)
              | none =>
                  if pngTypeAt data offset = [73, 69, 78, 68]
                  then Except.ok none
                  else readPngLoop data key
                    (offset + 12 + val32 ((data.drop offset).take 4)))
            = Except.ok r
          cases hhit : tEXtHit data key offset
              (val32 ((data.drop offset).take 4)) with
          | some v => exact ⟨some v, rfl⟩
          | none =>
              by_cases hiend : pngTypeAt data offset = [73, 69, 78, 68]
              · exact ⟨none, by simp [hiend]⟩
              · simp only [hiend, if_false] at hsafe
                obtain ⟨r, hr⟩ :=
                  ih (offset + 12 + val32 ((data.drop offset).take 4))
                    (by omega) hsafe
                exact ⟨r, by simp [hiend, hr]⟩
        · rw [if_neg hb] at hsafe
          exact absurd hsafe (by decide)
      · exact ⟨none, by rw [readPngLoop]; simp [hlt]⟩

/-- C2 amended: readPngMetadata never throws and returns a (found or
not-found) result on every buffer whose chunk walk keeps each 4-byte
length field inside the buffer — in particular on every well-formed
container; on truncated buffers where a chunk header straddles the end it
throws a RangeError (see the counterexample). -/
theorem c2_read_tolerant (data key : List ℕ)
    (hsafe : readPngSafe data 8 = true) :
    ∃ r, readPngMetadata data key = .ok r :=
  readPngLoop_ok_of_safe data key data.length 8 (by omega) hsafe

/-- Witness for the amended C2 at a signature-only 8-byte buffer. -/
theorem c2_read_tolerant_witness :
    ∃ r, readPngMetadata (List.replicate 8 0) [] = .ok r :=
  c2_read_tolerant (List.replicate 8 0) []
    (by rw [readPngSafe]; norm_num)

theorem findIdx?_append_zero (l1 l2 : List ℕ) (h : ∀ c ∈ l1, c ≠ 0) :
    ∀ i, (l1 ++ 0 :: l2).findIdx? (fun b => b == 0) i
      = some (l1.length + i) := by
  induction l1 with
  | nil => intro i; simp
  | cons a l ih =>
      intro i
      have ha : (a == 0) = false := by
        simp [h a (List.mem_cons_self a l)]
      rw [List.cons_append, List.findIdx?_cons, ha]
      simp only [Bool.false_eq_true, if_false]
      rw [ih (fun c hc => h c (List.mem_cons_of_mem _ hc)) (i + 1)]
      congr 1
      simp
      omega

theorem val32_u32be (n : ℕ) : val32 (u32be n) = n % 2 ^ 32 := by
  norm_num [u32be, val32]
  omega

/-- C6 amended: writing a key/value pair into a minimal valid container —
8-byte signature, 25-byte IHDR chunk (length field 13, type IHDR), any
remaining chunks — and reading the same key back returns exactly the
written value, for every NUL-free key of byte-sized characters and every
value of byte-sized characters whose combined length fits the 4-byte
chunk length field. -/
theorem c6_write_read_roundtrip (sig mid rest key value : List ℕ)
    (hsig : sig.length = 8) (hmid : mid.length = 17)
    (hkey : ∀ c ∈ key, 0 < c ∧ c < 256)
    (hval : ∀ c ∈ value, c < 256)
    (hsize : key.length + (1 + value.length) < 2 ^ 32) :
    ∃ out,
      writePngMetadata
        (sig ++ [0, 0, 0, 13] ++ [73, 72, 68, 82] ++ mid ++ rest) key value
        = .ok out ∧
      readPngMetadata out key = .ok (some value) := by
  have hkeyid : stringToUint8 key = key := by
    unfold stringToUint8
    rw [List.map_congr_left (fun c hc => Nat.mod_eq_of_lt (hkey c hc).2)]
    exact List.map_id key
  have hvalid : stringToUint8 value = value := by
    unfold stringToUint8
    rw [List.map_congr_left (fun c hc => Nat.mod_eq_of_lt (hval c hc))]
    exact List.map_id value
  set cd := key ++ (0 :: value) with hcd
  have hcdlen : cd.length = key.length + (1 + value.length) := by
    simp [hcd]
    omega
  set crcv := crc32 ([116, 69, 88, 116] ++ cd) with hcrcv
  set ft := u32be cd.length ++
      ([116, 69, 88, 116] ++ (cd ++ u32be crcv)) with hft
  have hftlen : ft.length = 12 + cd.length := by
    simp [hft, u32be]
    omega
  set png := sig ++ [0, 0, 0, 13] ++ [73, 72, 68, 82] ++ mid ++ rest
    with hpng
  have hpnglen : png.length = 33 + rest.length := by
    simp [hpng, hsig, hmid]
    omega
  set P := sig ++ ([0, 0, 0, 13] ++ ([73, 72, 68, 82] ++ mid)) with hP
  have hPlen : P.length = 33 := by
    simp [hP, hsig, hmid]
  have htake : png.take 33 = P := by
    have h1 : png = P ++ rest := by
      simp [hpng, hP, List.append_assoc]
    rw [h1, List.take_left' hPlen]
  have hdrop : png.drop 33 = rest := by
    have h1 : png = P ++ rest := by
      simp [hpng, hP, List.append_assoc]
    rw [h1, List.drop_left' hPlen]
  set out := P ++ (ft ++ rest) with hout
  have houtlen : out.length = 33 + (12 + cd.length) + rest.length := by
    simp [hout, hPlen, hftlen]
    omega
  have hwrite : writePngMetadata png key value = .ok out := by
    simp only [writePngMetadata]
    rw [if_neg (by omega)]
    rw [htake, hdrop, hkeyid, hvalid]
    simp [hout, hft, hcd, hcrcv, List.append_assoc]
  refine ⟨out, ?_, ?_⟩
  · exact hwrite
  -- the walk: at offset 8 the IHDR chunk is skipped (length 13, not tEXt,
  -- not IEND), landing at 33, where the inserted tEXt chunk matches.
  have hdr8 : out.drop 8
      = [0, 0, 0, 13] ++ ([73, 72, 68, 82] ++ (mid ++ (ft ++ rest))) := by
    have h1 : out = sig ++
        ([0, 0, 0, 13] ++ ([73, 72, 68, 82] ++ (mid ++ (ft ++ rest)))) := by
      simp [hout, hP, List.append_assoc]
    rw [h1, List.drop_left' hsig]
  have hdr33 : out.drop 33 = ft ++ rest := by
    rw [hout, List.drop_left' hPlen]
  have hlen8 : val32 ((out.drop 8).take 4) = 13 := by
    rw [hdr8, List.take_left' (by rfl)]
    norm_num [val32]
  have htype8 : pngTypeAt out 8 = [73, 72, 68, 82] := by
    unfold pngTypeAt
    rw [← List.drop_drop, hdr8, List.drop_left' (by rfl),
      List.take_left' (by rfl)]
  have hhit8 : ∀ len, tEXtHit out key 8 len = none := by
    intro len
    unfold tEXtHit
    rw [htype8]
    simp
  have hdr37 : out.drop (33 + 4)
      = [116, 69, 88, 116] ++ ((cd ++ u32be crcv) ++ rest) := by
    rw [← List.drop_drop, hdr33, hft, List.append_assoc,
      List.drop_left' (by simp [u32be]), List.append_assoc]
  have hdr41 : out.drop (33 + 8) = cd ++ (u32be crcv ++ rest) := by
    rw [show (33 : ℕ) + 8 = 33 + 4 + 4 from rfl, ← List.drop_drop, hdr37,
      List.drop_left' (by rfl), List.append_assoc]
  have hlen33 : val32 ((out.drop 33).take 4) = cd.length := by
    rw [hdr33, hft, List.append_assoc,
      List.take_left' (by simp [u32be]), val32_u32be,
      Nat.mod_eq_of_lt (by omega)]
  have htype33 : pngTypeAt out 33 = [116, 69, 88, 116] := by
    unfold pngTypeAt
    rw [hdr37, List.take_left' (by rfl)]
  have hhit33 : tEXtHit out key 33 cd.length = some value := by
    unfold tEXtHit
    rw [htype33, if_pos rfl, hdr41, List.take_left' rfl]
    have hfind : cd.findIdx? (fun b => b == 0) = some key.length := by
      have := findIdx?_append_zero key value
        (fun c hc => Nat.pos_iff_ne_zero.mp (hkey c hc).1) 0
      simpa [hcd] using this
    simp only [hfind]
    rw [if_pos (by rw [hcd, List.take_left' rfl])]
    rw [hcd, ← List.drop_drop, List.drop_left' rfl]
    simp
  have hstep1 : readPngLoop out key 8 = readPngLoop out key 33 := by
    rw [readPngLoop, dif_pos (by omega : (8 : ℕ) < out.length),
      if_pos (by omega : (8 : ℕ) + 4 ≤ out.length)]
    simp [hlen8, hhit8, htype8]
  have hstep2 : readPngLoop out key 33 = .ok (some value) := by
    rw [readPngLoop, dif_pos (by omega : (33 : ℕ) < out.length),
      if_pos (by omega : (33 : ℕ) + 4 ≤ out.length)]
    simp [hlen33, hhit33]
  show readPngLoop out key 8 = .ok (some value)
  rw [hstep1, hstep2]

/-- Witness for the amended C6: a concrete minimal container, key "K"
(code 75) and value "hello". -/
theorem c6_write_read_roundtrip_witness :
    ∃ out,
      writePngMetadata
        ([137, 80, 78, 71, 13, 10, 26, 10] ++ [0, 0, 0, 13] ++
          [73, 72, 68, 82] ++ List.replicate 17 0 ++
          [0, 0, 0, 0, 73, 69, 78, 68, 0, 0, 0, 0])
        [75] [104, 101, 108, 108, 111] = .ok out ∧
      readPngMetadata out [75] = .ok (some [104, 101, 108, 108, 111]) :=
  c6_write_read_roundtrip [137, 80, 78, 71, 13, 10, 26, 10]
    (List.replicate 17 0) [0, 0, 0, 0, 73, 69, 78, 68, 0, 0, 0, 0]
    [75] [104, 101, 108, 108, 111]
    rfl (by simp) (by decide) (by decide) (by norm_num)

/-- C6 counterexample: for the byte-sized but NUL-containing key [0] the
write/read round trip fails on a minimal valid container — the stored
chunk body 0x00 0x00 'A' splits at its first NUL into the empty key, so
the written key never matches and the read returns the not-found result
instead of the written value [65]. -/
theorem c6_nul_key_fails :
    writePngMetadata
      ([137, 80, 78, 71, 13, 10, 26, 10] ++ [0, 0, 0, 13] ++
        [73, 72, 68, 82] ++ List.replicate 17 0 ++
        [0, 0, 0, 0, 73, 69, 78, 68, 0, 0, 0, 0]) [0] [65]
      = .ok c6OutBuffer ∧
    readPngMetadata c6OutBuffer [0] = .ok none := by
  constructor
  · rfl
  · rw [readPngMetadata, readPngLoop]
    norm_num [tEXtHit, pngTypeAt, val32, c6OutBuffer]
    rw [readPngLoop]
    norm_num [tEXtHit, pngTypeAt, val32, c6OutBuffer]
    rw [readPngLoop]
    norm_num [tEXtHit, pngTypeAt, val32, c6OutBuffer]

/-! ### The sequencer collection operations (src/hooks/useSequencer.ts) -/

/-- C7: deleting when exactly one item remains leaves the state
untouched, and deleting an existing item from a collection of two or more
(under the collection's unique-id invariant) leaves the active index
strictly inside the new bounds. -/
theorem c7_delete_invariants (st : SeqState) (id : ℚ) :
    (st.sequences.length = 1 → deleteSequence st id = st) ∧
    (2 ≤ st.sequences.length →
      (∃ s ∈ st.sequences, s.id = id) →
      (st.sequences.map Sequence.id).Nodup →
      (deleteSequence st id).activeIndex
        < (deleteSequence st id).sequences.length) := by
  constructor
  · intro h1
    unfold deleteSequence
    rw [if_pos (by omega)]
  · intro h2 hex hnd
    obtain ⟨s0, hs0mem, hs0id⟩ := hex
    obtain ⟨j, hj⟩ :
        ∃ j, st.sequences.findIdx? (fun s => s.id == id) = some j := by
      cases hfound : st.sequences.findIdx? (fun s => s.id == id) with
      | none =>
          exfalso
          have := List.findIdx?_eq_none_iff.mp hfound s0 hs0mem
          simp [hs0id] at this
      | some j => exact ⟨j, rfl⟩
    obtain ⟨a, rest1, hcons1⟩ : ∃ a l, st.sequences = a :: l := by
      cases hs : st.sequences with
      | nil => rw [hs] at h2; simp at h2
      | cons a l => exact ⟨a, l, rfl⟩
    obtain ⟨b, rest2, hcons2⟩ : ∃ b l, rest1 = b :: l := by
      cases hs : rest1 with
      | nil => rw [hcons1, hs] at h2; simp at h2
      | cons b l => exact ⟨b, l, rfl⟩
    have hab : a.id ≠ b.id := by
      rw [hcons1, hcons2] at hnd
      simp only [List.map_cons, List.nodup_cons, List.mem_cons] at hnd
      exact fun hcontra => hnd.1 (Or.inl hcontra)
    have hsurvive : ∃ s', s' ∈ st.sequences ∧ s'.id ≠ id := by
      by_cases hcase : a.id = id
      · refine ⟨b, ?_, ?_⟩
        · rw [hcons1, hcons2]
          exact List.mem_cons_of_mem _ (List.mem_cons_self _ _)
        · rw [← hcase]
          exact fun hbid => hab hbid.symm
      · exact ⟨a, by rw [hcons1]; exact List.mem_cons_self _ _, hcase⟩
    obtain ⟨s', hs'mem, hs'id⟩ := hsurvive
    have hmemf : s' ∈ st.sequences.filter (fun s => !(s.id == id)) := by
      rw [List.mem_filter]
      exact ⟨hs'mem, by simp [hs'id]⟩
    have hlen1 : 1 ≤ (st.sequences.filter (fun s => !(s.id == id))).length :=
      List.length_pos_of_mem hmemf
    unfold deleteSequence
    rw [if_neg (by omega)]
    simp only [hj]
    split_ifs with hc1 hc2 <;> simp <;> omega

/-- Witness for C7: a singleton delete is a no-op and a two-item delete
of an item before the active one keeps the index in bounds. -/
theorem c7_delete_invariants_witness :
    deleteSequence c7StateOne 1 = c7StateOne ∧
    (deleteSequence c7StateTwo 1).activeIndex
      < (deleteSequence c7StateTwo 1).sequences.length :=
  ⟨(c7_delete_invariants c7StateOne 1).1 rfl,
   (c7_delete_invariants c7StateTwo 1).2 (by norm_num [c7StateTwo])
     ⟨c7ItemA, by simp [c7StateTwo], rfl⟩
     (by norm_num [c7StateTwo, c7ItemA, c7ItemB, List.nodup_cons])⟩

theorem get_mem_eraseIdx {α : Type} (l : List α) (i j : ℕ)
    (hj : j < l.length) (hne : j ≠ i) :
    l.get ⟨j, hj⟩ ∈ l.eraseIdx i := by
  rw [List.eraseIdx_eq_take_drop_succ]
  rcases Nat.lt_or_ge j i with hlt | hge
  · apply List.mem_append_left
    have h1 : (l.take i)[j]? = l[j]? := List.getElem?_take_of_lt hlt
    have h2 : l[j]? = some (l.get ⟨j, hj⟩) := by
      rw [List.getElem?_eq_getElem hj]
      rfl
    exact List.getElem?_mem (h1.trans h2)
  · have hgt : i + 1 ≤ j := by omega
    apply List.mem_append_right
    have h1 : (l.drop (i + 1))[j - (i + 1)]? = l[(i + 1) + (j - (i + 1))]? :=
      List.getElem?_drop l (i + 1) (j - (i + 1))
    rw [show (i + 1) + (j - (i + 1)) = j from by omega] at h1
    have h2 : l[j]? = some (l.get ⟨j, hj⟩) := by
      rw [List.getElem?_eq_getElem hj]
      rfl
    exact List.getElem?_mem (h1.trans h2)

theorem findIdx?_property {α : Type} (p : α → Bool) :
    ∀ l : List α, (∃ x ∈ l, p x = true) →
      ∃ j a, l.findIdx? p = some j ∧ l.get? j = some a ∧ p a = true := by
  intro l
  induction l with
  | nil =>
      rintro ⟨x, hx, _⟩
      cases hx
  | cons b l ih =>
      rintro ⟨x, hx, hp⟩
      by_cases hb : p b = true
      · exact ⟨0, b, by simp [hb], rfl, hb⟩
      · rcases List.mem_cons.mp hx with rfl | hx'
        · exact absurd hp hb
        · obtain ⟨j, a, h1, h2, h3⟩ := ih ⟨x, hx', hp⟩
          refine ⟨j + 1, a, ?_, by simpa using h2, h3⟩
          rw [List.findIdx?_cons]
          simp only [hb, Bool.false_eq_true, if_false]
          rw [show (1 : ℕ) = 0 + 1 from rfl, List.findIdx?_succ, h1]
          rfl

/-- C8: reordering moves the item at fromIndex to toIndex and re-selects
the previously active item by id: the new activeIndex is in range and
the item there carries the previously active id. -/
theorem c8_reorder_preserves_active (st : SeqState) (fromIndex toIndex : ℕ)
    (hA : st.activeIndex < st.sequences.length)
    (hf : fromIndex < st.sequences.length)
    (ht : toIndex < st.sequences.length) :
    ∃ st', reorderSequences st fromIndex toIndex = .ok st' ∧
      st'.sequences = (if fromIndex = toIndex then st.sequences
        else (st.sequences.eraseIdx fromIndex).insertIdx toIndex
          (st.sequences.get ⟨fromIndex, hf⟩)) ∧
      st'.sequences.length = st.sequences.length ∧
      ∃ a, st'.sequences.get? st'.activeIndex = some a ∧
        a.id = (st.sequences.get ⟨st.activeIndex, hA⟩).id := by
  by_cases heq : fromIndex = toIndex
  · refine ⟨st, ?_, ?_, rfl, ?_⟩
    · unfold reorderSequences
      rw [if_pos heq]
    · rw [if_pos heq]
    · exact ⟨_, List.get?_eq_get hA, rfl⟩
  · have hact : st.sequences.get? st.activeIndex
        = some (st.sequences.get ⟨st.activeIndex, hA⟩) := List.get?_eq_get hA
    have hmov : st.sequences.get? fromIndex
        = some (st.sequences.get ⟨fromIndex, hf⟩) := List.get?_eq_get hf
    set act := st.sequences.get ⟨st.activeIndex, hA⟩ with hsa
    set moved := st.sequences.get ⟨fromIndex, hf⟩ with hsm
    set removed := st.sequences.eraseIdx fromIndex with hrem
    have hremlen : removed.length = st.sequences.length - 1 := by
      rw [hrem]
      exact List.length_eraseIdx_of_lt hf
    have htle : toIndex ≤ removed.length := by omega
    have hmin : min toIndex removed.length = toIndex := by omega
    set newSequences := removed.insertIdx (min toIndex removed.length) moved
      with hnew
    have hnewlen : newSequences.length = st.sequences.length := by
      rw [hnew, hmin, List.length_insertIdx toIndex removed htle]
      omega
    have hactmem : act ∈ newSequences := by
      rw [hnew, List.mem_insertIdx (by omega : min toIndex removed.length ≤ removed.length)]
      by_cases hfa : fromIndex = st.activeIndex
      · left
        rw [hsa, hsm]
        congr 1
        exact Fin.ext hfa.symm
      · right
        rw [hrem, hsa]
        exact get_mem_eraseIdx st.sequences fromIndex st.activeIndex hA
          (fun h => hfa h.symm)
    obtain ⟨jdx, a, hfind, hget, hpa⟩ :=
      findIdx?_property (fun s => s.id == act.id) newSequences
        ⟨act, hactmem, by simp⟩
    refine ⟨{ st with sequences := newSequences, activeIndex := jdx },
      ?_, ?_, hnewlen, ?_⟩
    · have hrun : reorderSequences st fromIndex toIndex
          = match newSequences.findIdx? (fun s => s.id == act.id) with
            | some n => .ok { st with
                sequences := newSequences, activeIndex := n }
            | none => .ok { st with sequences := newSequences } := by
        unfold reorderSequences
        rw [if_neg heq, hact, hmov]
      rw [hrun, hfind]
    · rw [if_neg heq]
      show newSequences
        = (st.sequences.eraseIdx fromIndex).insertIdx toIndex moved
      rw [hnew, hmin]
    · refine ⟨a, hget, ?_⟩
      simpa using hpa

/-- Witness for C8: the spec's own example, reorder(0, 2) on ids [1,2,3]
with active id 2. -/
theorem c8_reorder_preserves_active_witness :
    ∃ st', reorderSequences c8State 0 2 = .ok st' ∧
      st'.sequences = (if (0 : ℕ) = 2 then c8State.sequences
        else (c8State.sequences.eraseIdx 0).insertIdx 2
          (c8State.sequences.get ⟨0, by norm_num [c8State]⟩)) ∧
      st'.sequences.length = c8State.sequences.length ∧
      ∃ a, st'.sequences.get? st'.activeIndex = some a ∧
        a.id = (c8State.sequences.get ⟨1, by norm_num [c8State]⟩).id :=
  c8_reorder_preserves_active c8State 0 2 (by norm_num [c8State])
    (by norm_num [c8State]) (by norm_num [c8State])

/-- C10: on a non-empty collection whose items carry well-formed
sequenceLength fields, each creation operation — addSequence,
duplicateSequence of an existing id, importSequence — appends its new
item at the end, selects it (activeIndex = new length - 1 = old length)
and forces playback to the stopped state. -/
theorem c10_create_ops (st : SeqState)
    (h0 : 0 < st.sequences.length)
    (hlen : ∀ s ∈ st.sequences, ∃ n : ℕ, n < 2 ^ 32 ∧
      s.geoConfig GeoKey.sequenceLength = Json.num (n : ℚ)) :
    (∃ st' ns, addSequence st = .ok st' ∧
      st'.sequences = st.sequences ++ [ns] ∧
      st'.activeIndex = st.sequences.length ∧
      st'.isPlaying = false) ∧
    (∀ id, (∃ s ∈ st.sequences, s.id = id) →
      ∃ ns,
        (duplicateSequence st id).sequences = st.sequences ++ [ns] ∧
        (duplicateSequence st id).activeIndex = st.sequences.length ∧
        (duplicateSequence st id).isPlaying = false) ∧
    (∀ imp : Sequence,
      ∃ ns,
        (importSequence st imp).sequences = st.sequences ++ [ns] ∧
        (importSequence st imp).activeIndex = st.sequences.length ∧
        (importSequence st imp).isPlaying = false) := by
  refine ⟨?_, ?_, ?_⟩
  · -- addSequence
    have hbase : ∃ s ∈ st.sequences,
        (match st.sequences.get? st.activeIndex with
          | some s' => some s'
          | none => st.sequences.get? 0) = some s := by
      cases hga : st.sequences.get? st.activeIndex with
      | some s' => exact ⟨s', List.get?_mem hga, rfl⟩
      | none =>
          cases hg0 : st.sequences.get? 0 with
          | some s0 => exact ⟨s0, List.get?_mem hg0, rfl⟩
          | none =>
              exfalso
              rw [List.get?_eq_none] at hg0
              omega
    obtain ⟨sb, hsbmem, hsb⟩ := hbase
    obtain ⟨n, hn32, hnval⟩ := hlen sb hsbmem
    have hfill : jsNewArrayFill0 (sb.geoConfig GeoKey.sequenceLength)
        = .ok (List.replicate n 0) := by
      rw [hnval]
      simp only [jsNewArrayFill0]
      rw [if_pos ⟨by positivity, by simp, by
        rw [Rat.num_natCast]
        exact_mod_cast hn32⟩]
      rw [Rat.num_natCast]
      simp
    have key : addSequence st = .ok { st with
        sequences := st.sequences ++
          [({ id := newSeqId st.sequences,
              name := "Card " ++ jsNumToString (newSeqId st.sequences),
              description := "New sequence pattern",
              data := List.replicate n 0,
              geoConfig := sb.geoConfig } : Sequence)],
        activeIndex := (st.sequences ++
          [({ id := newSeqId st.sequences,
              name := "Card " ++ jsNumToString (newSeqId st.sequences),
              description := "New sequence pattern",
              data := List.replicate n 0,
              geoConfig := sb.geoConfig } : Sequence)]).length - 1,
        isPlaying := false } := by
      unfold addSequence
      rw [hsb]
      show (match jsNewArrayFill0 (sb.geoConfig GeoKey.sequenceLength) with
        | .error e => Except.error e
        | .ok data => _) = _
      rw [hfill]
    exact ⟨_, _, key, rfl, by simp, rfl⟩
  · -- duplicateSequence
    intro id hex
    obtain ⟨s0, hs0mem, hs0id⟩ := hex
    have hfound : ∃ src,
        st.sequences.find? (fun s => s.id == id) = some src := by
      cases hfind : st.sequences.find? (fun s => s.id == id) with
      | some src => exact ⟨src, rfl⟩
      | none =>
          exfalso
          have := List.find?_eq_none.mp hfind s0 hs0mem
          simp [hs0id] at this
    obtain ⟨src, hsrc⟩ := hfound
    refine ⟨({ src with
        id := newSeqId st.sequences,
        name := src.name ++ " (Copy)" } : Sequence), ?_, ?_, ?_⟩ <;>
      simp [duplicateSequence, hsrc]
  · -- importSequence
    intro imp
    exact ⟨_, rfl, by simp [importSequence], rfl⟩

/-- Witness for C10 at a concrete one-item state. -/
theorem c10_create_ops_witness :
    (∃ st' ns, addSequence c7StateOne = .ok st' ∧
      st'.sequences = c7StateOne.sequences ++ [ns] ∧
      st'.activeIndex = c7StateOne.sequences.length ∧
      st'.isPlaying = false) ∧
    (∀ id, (∃ s ∈ c7StateOne.sequences, s.id = id) →
      ∃ ns,
        (duplicateSequence c7StateOne id).sequences
          = c7StateOne.sequences ++ [ns] ∧
        (duplicateSequence c7StateOne id).activeIndex
          = c7StateOne.sequences.length ∧
        (duplicateSequence c7StateOne id).isPlaying = false) ∧
    (∀ imp : Sequence,
      ∃ ns,
        (importSequence c7StateOne imp).sequences
          = c7StateOne.sequences ++ [ns] ∧
        (importSequence c7StateOne imp).activeIndex
          = c7StateOne.sequences.length ∧
        (importSequence c7StateOne imp).isPlaying = false) :=
  c10_create_ops c7StateOne (by norm_num [c7StateOne])
    (fun s hs => ⟨8, by norm_num, by
      rcases List.mem_singleton.mp (by simpa [c7StateOne] using hs) with rfl
      rfl⟩)

/-! ### The video export frame loop (src/hooks/useVideoExport.ts) -/

theorem sceneFrames_eq (si fps : ℕ) :
    ∀ cnt fi ts, cnt = fps - fi → fi ≤ fps →
      sceneFrames si fps fi ts
        = ((List.range cnt).map
            (fun k => (si, fi + k, ts + (k : ℚ) * (1 / 30))),
           ts + (cnt : ℚ) * (1 / 30)) := by
  intro cnt
  induction cnt with
  | zero =>
      intro fi ts hc _
      rw [sceneFrames, if_neg (by omega)]
      simp
  | succ n ih =>
      intro fi ts hc hle
      rw [sceneFrames, if_pos (by omega)]
      rw [ih (fi + 1) (ts + 1 / 30) (by omega) (by omega)]
      refine Prod.ext ?_ ?_
      · show (si, fi, ts) :: (List.range n).map
            (fun k => (si, fi + 1 + k, ts + 1 / 30 + (k : ℚ) * (1 / 30)))
          = (List.range (n + 1)).map
            (fun k => (si, fi + k, ts + (k : ℚ) * (1 / 30)))
        rw [List.range_succ_eq_map, List.map_cons, List.map_map]
        congr 1
        · simp
        · apply List.map_congr_left
          intro k _
          simp only [Function.comp]
          refine Prod.ext rfl (Prod.ext ?_ ?_)
          · show fi + 1 + k = fi + (k + 1)
            omega
          · show ts + 1 / 30 + (k : ℚ) * (1 / 30)
              = ts + ((k + 1 : ℕ) : ℚ) * (1 / 30)
            push_cast
            ring
      · show ts + 1 / 30 + (n : ℚ) * (1 / 30)
          = ts + ((n + 1 : ℕ) : ℚ) * (1 / 30)
        push_cast
        ring

theorem exportLoop_eq (fps : ℕ) :
    ∀ cnt numScenes si ts, numScenes - si = cnt → si ≤ numScenes →
      exportLoop numScenes fps si ts
        = (List.range cnt).flatMap (fun j =>
            (List.range fps).map (fun k =>
              (si + j, k, ts + ((j * fps + k : ℕ) : ℚ) * (1 / 30)))) := by
  intro cnt
  induction cnt with
  | zero =>
      intro numScenes si ts h1 _
      rw [exportLoop, if_neg (by omega)]
      simp
  | succ n ih =>
      intro numScenes si ts h1 h2
      have hsf := sceneFrames_eq si fps fps 0 ts (by omega) (by omega)
      have hfst : (sceneFrames si fps 0 ts).1
          = (List.range fps).map
              (fun k : ℕ => (si, 0 + k, ts + (k : ℚ) * (1 / 30))) := by
        rw [hsf]
      have hsnd : (sceneFrames si fps 0 ts).2
          = ts + (fps : ℚ) * (1 / 30) := by
        rw [hsf]
      rw [exportLoop, if_pos (by omega)]
      show (sceneFrames si fps 0 ts).1
          ++ exportLoop numScenes fps (si + 1) (sceneFrames si fps 0 ts).2
        = _
      rw [hfst, hsnd,
        ih numScenes (si + 1) (ts + (fps : ℚ) * (1 / 30)) (by omega)
          (by omega)]
      rw [List.range_succ_eq_map, List.flatMap_cons, List.flatMap_map]
      congr 1
      · apply List.map_congr_left
        intro k _
        refine Prod.ext (by simp) (Prod.ext (by simp) ?_)
        show ts + (k : ℚ) * (1 / 30)
          = ts + ((0 * fps + k : ℕ) : ℚ) * (1 / 30)
        push_cast
        ring
      · rw [List.flatMap_def, List.flatMap_def]
        congr 1
        apply List.map_congr_left
        intro j _
        show (List.range fps).map _ = (List.range fps).map _
        apply List.map_congr_left
        intro k _
        refine Prod.ext ?_ (Prod.ext rfl ?_)
        · show si + 1 + j = si + (j + 1)
          omega
        · show ts + (fps : ℚ) * (1 / 30) + ((j * fps + k : ℕ) : ℚ) * (1 / 30)
            = ts + (((j + 1) * fps + k : ℕ) : ℚ) * (1 / 30)
          push_cast
          ring

/-- The whole schedule in closed form: scene-indexed blocks of fps frames
with globally running timestamps. -/
theorem exportVideoFrames_eq (numScenes : ℕ) (timingMs : ℚ) :
    exportVideoFrames numScenes timingMs
      = (List.range numScenes).flatMap (fun j =>
          (List.range (framesPerScene timingMs).toNat).map (fun k =>
            (j, k,
             ((j * (framesPerScene timingMs).toNat + k : ℕ) : ℚ)
               * (1 / 30)))) := by
  unfold exportVideoFrames
  rw [exportLoop_eq _ numScenes numScenes 0 0 rfl (by omega)]
  rw [List.flatMap_def, List.flatMap_def]
  congr 1
  apply List.map_congr_left
  intro j _
  apply List.map_congr_left
  intro k _
  simp

theorem filter_blocks {β : Type} (tsf : ℕ → ℕ → β) (fps si : ℕ) :
    ∀ n, (((List.range n).flatMap (fun j =>
      (List.range fps).map (fun k => (j, tsf j k)))).filter
        (fun e => e.1 == si)).length = if si < n then fps else 0 := by
  intro n
  induction n with
  | zero => simp
  | succ m ih =>
      rw [List.range_succ, List.flatMap_append, List.filter_append,
        List.length_append, ih, List.flatMap_singleton]
      by_cases hlt : si < m
      · rw [if_pos hlt, if_pos (by omega)]
        have hz : (((List.range fps).map
            (fun k => (m, tsf m k))).filter (fun e => e.1 == si)) = [] := by
          apply List.filter_eq_nil_iff.mpr
          intro e he
          obtain ⟨k, _, hk⟩ := List.mem_map.mp he
          rw [← hk]
          simp
          omega
        rw [hz]
        rfl
      · by_cases heq : si = m
        · rw [if_neg hlt, if_pos (by omega)]
          have hall : (((List.range fps).map
              (fun k => (m, tsf m k))).filter (fun e => e.1 == si))
              = (List.range fps).map (fun k => (m, tsf m k)) := by
            apply List.filter_eq_self.mpr
            intro e he
            obtain ⟨k, _, hk⟩ := List.mem_map.mp he
            rw [← hk]
            simp [heq]
          rw [hall]
          simp
        · rw [if_neg hlt, if_neg (by omega)]
          have hz : (((List.range fps).map
              (fun k => (m, tsf m k))).filter (fun e => e.1 == si)) = [] := by
            apply List.filter_eq_nil_iff.mpr
            intro e he
            obtain ⟨k, _, hk⟩ := List.mem_map.mp he
            rw [← hk]
            simp
            omega
          rw [hz]
          rfl

theorem range_mul_map {β : Type} (f : ℕ → β) (fps : ℕ) :
    ∀ n, (List.range (n * fps)).map f
      = (List.range n).flatMap (fun j =>
          (List.range fps).map (fun k => f (j * fps + k))) := by
  intro n
  induction n with
  | zero => simp
  | succ m ih =>
      rw [List.range_succ, List.flatMap_append, List.flatMap_singleton,
        show (m + 1) * fps = m * fps + fps from by ring,
        List.range_add, List.map_append, ih]
      congr 1
      rw [List.map_map]
      apply List.map_congr_left
      intro k _
      simp [Nat.add_comm]

/-- The submitted timestamps are the global frame indices over 30. -/
theorem exportVideoFrames_thirds (numScenes : ℕ) (timingMs : ℚ) :
    (exportVideoFrames numScenes timingMs).map (fun e => e.2.2)
      = (List.range
          (numScenes * (framesPerScene timingMs).toNat)).map
          (fun g : ℕ => (g : ℚ) * (1 / 30)) := by
  rw [exportVideoFrames_eq, List.map_flatMap,
    range_mul_map (fun g : ℕ => (g : ℚ) * (1 / 30))
      (framesPerScene timingMs).toNat numScenes]
  rw [List.flatMap_def, List.flatMap_def]
  congr 1
  apply List.map_congr_left
  intro j _
  rw [List.map_map]
  rfl

/-- C9: the export pipeline renders, for every scene, exactly
round((sceneDurationMs/1000)*30) sub-frames, submitted with strictly
increasing timestamps advancing by 1/30 second each; in particular
timingMs = 2000 yields exactly 60 sub-frames per scene. -/
theorem c9_frame_schedule (numScenes : ℕ) (timingMs : ℚ)
    (hpos : 0 ≤ framesPerScene timingMs) :
    (∀ si < numScenes,
        (((exportVideoFrames numScenes timingMs).filter
            (fun e => e.1 == si)).length : ℤ) = framesPerScene timingMs)
    ∧ (∀ (j : ℕ) (a b : ℕ × ℕ × ℚ),
        (exportVideoFrames numScenes timingMs)[j]? = some a →
        (exportVideoFrames numScenes timingMs)[j + 1]? = some b →
        b.2.2 = a.2.2 + 1 / 30 ∧ a.2.2 < b.2.2)
    ∧ framesPerScene 2000 = 60 := by
  have key : ∀ (i : ℕ) (x : ℕ × ℕ × ℚ),
      (exportVideoFrames numScenes timingMs)[i]? = some x →
      x.2.2 = (i : ℚ) * (1 / 30) := by
    intro i x hx
    have h1 : ((exportVideoFrames numScenes timingMs).map
        (fun e => e.2.2))[i]? = some x.2.2 := by
      rw [List.getElem?_map, hx]
      rfl
    rw [exportVideoFrames_thirds, List.getElem?_map] at h1
    cases hr : (List.range
        (numScenes * (framesPerScene timingMs).toNat))[i]? with
    | none =>
        rw [hr] at h1
        exact absurd h1 (by simp)
    | some g =>
        rw [hr] at h1
        have hg : g = i := by
          rcases List.getElem?_eq_some_iff.mp hr with ⟨hi, hgi⟩
          rw [← hgi, List.getElem_range]
        have h2 : (g : ℚ) * (1 / 30) = x.2.2 := Option.some.inj h1
        rw [← h2, hg]
  refine ⟨?_, ?_, ?_⟩
  · intro si hsi
    have hfb := (filter_blocks
      (fun j k => (k,
        ((j * (framesPerScene timingMs).toNat + k : ℕ) : ℚ) * (1 / 30)))
      (framesPerScene timingMs).toNat si numScenes).trans (if_pos hsi)
    have h2 : (((List.range numScenes).flatMap (fun j =>
        (List.range (framesPerScene timingMs).toNat).map (fun k =>
          (j, k,
           ((j * (framesPerScene timingMs).toNat + k : ℕ) : ℚ)
             * (1 / 30))))).filter
        (fun e => e.1 == si)).length
        = (framesPerScene timingMs).toNat := hfb
    rw [exportVideoFrames_eq, h2]
    exact Int.toNat_of_nonneg hpos
  · intro j a b ha hb
    have hA := key j a ha
    have hB := key (j + 1) b hb
    constructor
    · rw [hA, hB]
      push_cast
      ring
    · rw [hA, hB]
      have : ((j : ℚ)) < ((j + 1 : ℕ) : ℚ) := by push_cast; linarith
      have h30 : (0 : ℚ) < 1 / 30 := by norm_num
      exact mul_lt_mul_of_pos_right this h30
  · show jsRound ((2000 : ℚ) / 1000 * 30) = 60
    unfold jsRound
    norm_num

theorem c9_frame_schedule_witness :
    0 ≤ framesPerScene 2000
    ∧ (((exportVideoFrames 2 2000).filter
        (fun e => e.1 == 0)).length : ℤ) = framesPerScene 2000
    ∧ (((exportVideoFrames 2 2000).filter
        (fun e => e.1 == 1)).length : ℤ) = framesPerScene 2000
    ∧ framesPerScene 2000 = 60 := by
  have hpos : 0 ≤ framesPerScene 2000 := by
    unfold framesPerScene jsRound
    norm_num
  exact ⟨hpos,
    (c9_frame_schedule 2 2000 hpos).1 0 (by norm_num),
    (c9_frame_schedule 2 2000 hpos).1 1 (by norm_num),
    (c9_frame_schedule 2 2000 hpos).2.2⟩
